import Mathlib

/-!
Verification of the sequential-reporting workflow of the `mcp-europeana`
repository (file `europeana_api/sequential_reporting.py`), against its
natural-language specification.

The Python module is shallowly embedded below.  Conventions:

* Python `str` is modelled by `String`, with character-level processing on
  `List Char`.  The regex classes `\d` and `\s` are modelled by their ASCII
  meaning (the repository only ever feeds ASCII citation tokens).
* Python machine integers are unbounded, so `Int` models them exactly.
* External HTTP collaborators (`EuropeanaAPI.search`, `SearchAPI`) are
  abstracted by an oracle environment: each search call either returns a
  list of raw records or raises (after the retry loop exhausts).
* Functions that can only fail by raising return `Except` values; the
  top-level `process_section` catches everything, mirroring the Python
  `try/except` boundary.
-/

namespace Europeana

/-- Python whitespace for `str.strip` / `str.split` / regex `\s`
(space, tab, newline, carriage return, vertical tab, form feed). -/
def isPySpace (c : Char) : Bool :=
  c = ' ' || c = '\t' || c = '\n' || c = '\r' || c = '\x0b' || c = '\x0c'

/-- Python `s.strip()`: drop leading and trailing whitespace. -/
def pyStrip (s : List Char) : List Char :=
  ((s.dropWhile isPySpace).reverse.dropWhile isPySpace).reverse

/-- Python `content.split('\n\n')`: split on non-overlapping occurrences of a
blank line separator, scanning left to right. -/
def splitParas : List Char → List (List Char)
  | [] => [[]]
  | '\n' :: '\n' :: rest => [] :: splitParas rest
  | c :: rest =>
    match splitParas rest with
    | [] => [[c]]
    | p :: ps => (c :: p) :: ps

/-- Paragraph list of `[p for p in content.split('\n\n') if p.strip()]`. -/
def paragraphs (content : String) : List (List Char) :=
  (splitParas content.toList).filter (fun p => !(pyStrip p).isEmpty)

/-- Numeric value of a digit string, as Python `int` applied to the capture
of `\d+`. -/
def digitsToInt (ds : List Char) : Int :=
  Int.ofNat (ds.foldl (fun acc c => acc * 10 + (c.toNat - '0'.toNat)) 0)

/-- Match of the optional page-marker alternation `p\.|page` at the head of
the input; returns the remaining characters on success. -/
def pageMarker : List Char → Option (List Char)
  | 'p' :: '.' :: rest => some rest
  | 'p' :: 'a' :: 'g' :: 'e' :: rest => some rest
  | _ => none

/-- Attempt to match the citation regex `\[(\d+)(?:,\s*(?:p\.|page)\s*\d+)?\]`
at the head of the input.  The regex is deterministic at this anchor: after
the greedy `\d+`, the next character decides between `]` (no page marker) and
`,` (page marker), and no backtracking into `\d+`/`\s*` can create a match
that this function misses (giving back a digit leaves a digit where `]` or
`,` is required, and giving back whitespace leaves whitespace where `p` is
required).  Returns the captured id and the characters after the match. -/
def matchCitationAt : List Char → Option (Int × List Char)
  | '[' :: rest =>
    match rest.span Char.isDigit with
    | ([], _) => none
    | (ds, r2) =>
      match r2 with
      | ']' :: r3 => some (digitsToInt ds, r3)
      | ',' :: r3 =>
        match pageMarker (r3.dropWhile isPySpace) with
        | none => none
        | some r5 =>
          match (r5.dropWhile isPySpace).span Char.isDigit with
          | ([], _) => none
          | (_, r7) =>
            match r7 with
            | ']' :: r8 => some (digitsToInt ds, r8)
            | _ => none
      | _ => none
  | _ => none

/-- Fuelled scanner for `re.findall(citation_regex, paragraph)`: at each
position try to match; on success emit the captured group and resume after
the match, otherwise advance one character.  `fuel` bounds the number of
steps; every step strictly shortens the input, so `fuel = length` is always
enough. -/
def findCitationsF : Nat → List Char → List Int
  | 0, _ => []
  | _, [] => []
  | fuel + 1, c :: rest =>
    match matchCitationAt (c :: rest) with
    | some (n, remainder) => n :: findCitationsF fuel remainder
    | none => findCitationsF fuel rest

/-- All citation ids found in a paragraph, in scan order
(`[int(match) for match in re.findall(citation_regex, paragraph)]`). -/
def findCitations (p : List Char) : List Int :=
  findCitationsF p.length p

/-- Paragraph-level issue recorded by the citation checkers.  The Python code
stores a dict with the paragraph index, a text excerpt and an issue string;
the excerpt is presentation-only and the issue string is determined by the
constructor, so the embedding keeps the index and the issue payload. -/
inductive ParaIssue where
  | noCitations : ParaIssue
  | invalidCites (cites : List Int) : ParaIssue
  deriving DecidableEq, Repr

/-- Result of `_verify_content_has_citations`.  When `sources_used` is empty
the Python dict has no `paragraph_issues` key and the caller defaults it to
`[]`, which is how the embedding renders that case. -/
structure PVResult where
  valid : Bool
  paragraph_issues : List (Nat × ParaIssue)
  message : String
  deriving DecidableEq, Repr

/-- Per-paragraph step of `_verify_content_has_citations`: short paragraphs
(stripped length < 20) are exempt; a qualifying paragraph with no citation
gets a `noCitations` issue (and the loop continues to the next paragraph);
otherwise citations outside `sources_used` get an `invalidCites` issue. -/
def pvStep (su : List Int) (issues : List (Nat × ParaIssue)) (ip : Nat × List Char) :
    List (Nat × ParaIssue) :=
  if (pyStrip ip.2).length < 20 then issues
  else
    let cites := findCitations ip.2
    if cites.isEmpty then issues ++ [(ip.1, ParaIssue.noCitations)]
    else
      let inv := cites.filter (fun c => !su.contains c)
      if inv.isEmpty then issues else issues ++ [(ip.1, ParaIssue.invalidCites inv)]

/-- Embedding of `SequentialReportingServer._verify_content_has_citations`. -/
def verifyContentHasCitations (content : String) (su : List Int) : PVResult :=
  if su.isEmpty then
    { valid := false, paragraph_issues := [], message := "No sources provided in sources_used list." }
  else
    let issues := (paragraphs content).enum.foldl (pvStep su) []
    { valid := issues.isEmpty
      paragraph_issues := issues
      message :=
        if issues.isEmpty then "All paragraphs properly cited"
        else toString issues.length ++ " paragraphs with citation issues" }

/-- Loop state of `verify_citations`: the running set of cited sources (a
Python `set`, modelled as a duplicate-free list in insertion order), the
paragraph issues, and the validity flag. -/
structure VCState where
  cited : List Int
  issues : List (Nat × ParaIssue)
  valid : Bool
  deriving DecidableEq, Repr

/-- Python `set.update`: insert each element not already present. -/
def setInsert (s : List Int) (xs : List Int) : List Int :=
  xs.foldl (fun acc x => if acc.contains x then acc else acc ++ [x]) s

/-- Per-paragraph step of `verify_citations`: skip short paragraphs, collect
cited ids, flag paragraphs with no citations and paragraphs citing ids
outside `sources_used`, clearing the validity flag in either case. -/
def vcStep (su : List Int) (st : VCState) (ip : Nat × List Char) : VCState :=
  if (pyStrip ip.2).length < 20 then st
  else
    let cites := findCitations ip.2
    let st1 : VCState := { st with cited := setInsert st.cited cites }
    let st2 : VCState :=
      if cites.isEmpty then
        { st1 with valid := false, issues := st1.issues ++ [(ip.1, ParaIssue.noCitations)] }
      else st1
    let inv := cites.filter (fun c => !su.contains c)
    if inv.isEmpty then st2
    else { st2 with valid := false, issues := st2.issues ++ [(ip.1, ParaIssue.invalidCites inv)] }

/-- Result of `verify_citations`.  `invalid_citations` iterates a Python
`set`; the embedding fixes insertion order for it (no claim depends on its
order, only on its contents). -/
structure VCResult where
  valid : Bool
  uncited_sources : List Int
  invalid_citations : List Int
  uncited_paragraphs : List (Nat × ParaIssue)
  message : String
  deriving DecidableEq, Repr

/-- Embedding of `SequentialReportingServer.verify_citations`. -/
def verifyCitations (content : String) (su : List Int) : VCResult :=
  let st := (paragraphs content).enum.foldl (vcStep su) ⟨[], [], true⟩
  let uncited := su.filter (fun s => !st.cited.contains s)
  let invalid := st.cited.filter (fun c => !su.contains c)
  let msgs :=
    (if uncited.isEmpty then [] else
      ["Sources listed but not cited in content: " ++
        String.intercalate ", " (uncited.map toString)]) ++
    (if invalid.isEmpty then [] else
      ["Citations in content not in sources_used list: " ++
        String.intercalate ", " (invalid.map toString)]) ++
    (if st.issues.isEmpty then [] else
      [toString st.issues.length ++ " paragraphs with citation issues found."])
  { valid := st.valid && uncited.isEmpty && invalid.isEmpty
    uncited_sources := uncited
    invalid_citations := invalid
    uncited_paragraphs := st.issues
    message :=
      if msgs.isEmpty then "All citations validated successfully."
      else String.intercalate " " msgs }

/-! ## Sources, graphics and provider diversity -/

/-- A normalized source, with exactly the keys `process_result` writes in
`search_sources`.  The `thumbnail` holds what `extract_thumbnail` returned
(a string, a raw non-string field value, or Python `None`). -/
structure Source where
  id : Int
  title : String
  description : String
  url : String
  provider : String
  thumbnail : Option String
  media_type : String
  rights : String
  date : String
  europeanaId : String
  is_pdf : Bool
  deriving DecidableEq, Repr

/-- A graphic, with the keys written by `process_result` in
`search_graphics` (same shape as `Source` minus `is_pdf`). -/
structure Graphic where
  id : Int
  title : String
  description : String
  url : String
  provider : String
  thumbnail : Option String
  media_type : String
  rights : String
  date : String
  europeanaId : String
  deriving DecidableEq, Repr

/-- Python dict counting in insertion order
(`provider_counts[provider] += 1` with first-seen keys appended last). -/
def addCount : List (String × Nat) → String → List (String × Nat)
  | [], p => [(p, 1)]
  | (q, n) :: rest, p =>
    if q = p then (q, n + 1) :: rest else (q, n) :: addCount rest p

/-- The `provider_counts` dict of `_analyze_provider_diversity`, keyed in
first-encountered order. -/
def providerCounts (provs : List String) : List (String × Nat) :=
  provs.foldl addCount []

/-- Head of `sorted(provider_counts.items(), key=lambda x: x[1], reverse=True)`:
Python's sort is stable, so the first element of the descending sort is the
first entry achieving the maximal count.  The fold keeps the current best on
ties, which selects exactly that entry. -/
def pickFirstMax : (String × Nat) → List (String × Nat) → (String × Nat)
  | best, [] => best
  | best, x :: rest => pickFirstMax (if best.2 < x.2 then x else best) rest

/-- Provider-diversity record returned by `_analyze_provider_diversity`.
The server field `self.provider_analysis` starts out as the empty dict `{}`;
that state is modelled as `none` at the use sites. -/
structure ProviderAnalysis where
  diverse_sources : Bool
  total_providers : Nat
  primary_provider : String
  provider_distribution : List (String × Nat)
  deriving DecidableEq, Repr

/-- Embedding of `SequentialReportingServer._analyze_provider_diversity`
(first, live copy; the Python function body repeats three more dead copies
after its `return`).  Every source dict built by `process_result` has a
`provider` key, so `source.get('provider', 'Unknown')` is the field. -/
def analyzeProviderDiversity (sources : List Source) : ProviderAnalysis :=
  if sources.isEmpty then
    { diverse_sources := false, total_providers := 0
      primary_provider := "None", provider_distribution := [] }
  else
    let pc := providerCounts (sources.map Source.provider)
    let primary :=
      match pc with
      | [] => "Unknown"
      | x :: xs => (pickFirstMax x xs).1
    { diverse_sources := decide (1 < pc.length)
      total_providers := pc.length
      primary_provider := primary
      provider_distribution := pc }

/-! ## Source discovery -/

/-- A raw metadata field that may hold a string or a list of strings
(the two shapes `process_result` distinguishes with `isinstance(..., list)`). -/
inductive StrField where
  | str (s : String) : StrField
  | list (l : List String) : StrField
  deriving DecidableEq, Repr

/-- The raw-record fields read by `process_result`, `extract_thumbnail` and
`_format_citation`; an absent key is `none`. -/
structure RawRecord where
  id : Option String := none
  edmIsShownBy : Option StrField := none
  edmIsShownAt : Option StrField := none
  title : Option StrField := none
  description : Option StrField := none
  provider : Option StrField := none
  rtype : Option String := none
  rights : Option StrField := none
  year : Option String := none
  deriving DecidableEq, Repr

/-- Embedding of `EuropeanaAPI.extract_thumbnail` on a search-result record
(the `aggregations` branch concerns full records, which never flow through
`process_result`).  A present non-empty list yields its first element; a
present empty list yields the raw field (rendered `none`, like the absent
case, since only presentation reads it); a string yields itself. -/
def extractThumbnail (r : RawRecord) : Option String :=
  match r.edmIsShownBy with
  | some (StrField.list (x :: _)) => some x
  | some (StrField.str s) => some s
  | some (StrField.list []) => none
  | none => none

/-- The pattern `result.get(k, [d])[0] if isinstance(result.get(k, []), list)
else result.get(k, d)`: an absent key gives the default, an empty list raises
`IndexError` (caught by `process_result`, which then skips the record). -/
def getStrOrHead (f : Option StrField) (dflt : String) : Except Unit String :=
  match f with
  | none => Except.ok dflt
  | some (StrField.str s) => Except.ok s
  | some (StrField.list []) => Except.error ()
  | some (StrField.list (x :: _)) => Except.ok x

/-- URL extraction in `process_result`: `edmIsShownBy` first, else
`edmIsShownAt`, else the empty string; indexing an empty list raises. -/
def getRecordUrl (r : RawRecord) : Except Unit String :=
  match r.edmIsShownBy with
  | some (StrField.str s) => Except.ok s
  | some (StrField.list []) => Except.error ()
  | some (StrField.list (x :: _)) => Except.ok x
  | none =>
    match r.edmIsShownAt with
    | some (StrField.str s) => Except.ok s
    | some (StrField.list []) => Except.error ()
    | some (StrField.list (x :: _)) => Except.ok x
    | none => Except.ok ""

/-- The body of the `try` block of `process_result` after the `seen_ids`
update: URL, title, description, provider and rights extraction, any of
which may raise (`error`, swallowed by the `except`) — the no-URL skip is
folded into the same "no source" outcome. -/
def buildSource (topic resultType : String) (r : RawRecord) (index : Int)
    (idField : String) : Except Unit Source :=
  match getRecordUrl r with
  | Except.error _ => Except.error ()
  | Except.ok url =>
    if url = "" then Except.error ()
    else
      match getStrOrHead r.title "Untitled" with
      | Except.error _ => Except.error ()
      | Except.ok title =>
        match getStrOrHead r.description "" with
        | Except.error _ => Except.error ()
        | Except.ok desc0 =>
          match getStrOrHead r.provider "Unknown Provider" with
          | Except.error _ => Except.error ()
          | Except.ok provider =>
            match getStrOrHead r.rights "Unknown Rights" with
            | Except.error _ => Except.error ()
            | Except.ok rights =>
              Except.ok
                { id := index
                  title := title
                  description :=
                    if desc0 = "" then
                      resultType ++ " related to " ++ topic ++ ": " ++ title
                    else desc0
                  url := url
                  provider := provider
                  thumbnail := extractThumbnail r
                  media_type := r.rtype.getD "Unknown"
                  rights := rights
                  date := r.year.getD "Unknown Date"
                  europeanaId := idField
                  is_pdf := ".pdf".toList.isSuffixOf (url.toList.map Char.toLower) }

/-- Embedding of the inner `process_result` of `search_sources`.  Returns
the built source (or `none` when the record is skipped, including when a
field access raises and the surrounding `except` swallows it) together with
the updated `seen_ids` set — the id is added *before* the fallible field
accesses, so a record that later fails still blocks duplicates. -/
def processResult (topic resultType : String) (seen : List String)
    (r : RawRecord) (index : Int) : Option Source × List String :=
  match r.id with
  | none => (none, seen)
  | some idField =>
    if idField = "" then (none, seen)
    else if seen.contains idField then (none, seen)
    else
      match buildSource topic resultType r index idField with
      | Except.error _ => (none, idField :: seen)
      | Except.ok src => (some src, idField :: seen)

/-- One strategy's record loop,
`for i, result in enumerate(results, start): ...` — the index advances for
every raw record, including skipped ones. -/
def runBatch (topic resultType : String) :
    Int → List RawRecord → List Source → List String → List Source × List String
  | _, [], acc, seen => (acc, seen)
  | i, r :: rest, acc, seen =>
    match processResult topic resultType seen r i with
    | (some src, seen') => runBatch topic resultType (i + 1) rest (acc ++ [src]) seen'
    | (none, seen') => runBatch topic resultType (i + 1) rest acc seen'

/-- Oracle for the external search collaborators.  `sourceSearch` abstracts
one `search_with_retry` call of `search_sources` (query, optional TYPE
filter, rows); `typeSearch` abstracts `search_api.search_by_type` as used by
`search_graphics`.  An `error` outcome models the final re-raise after three
failed attempts; `ok records` models `results.get('records', [])` (which is
also `[]` when the HTTP layer reported an error dict). -/
structure SearchEnv where
  sourceSearch : String → Option String → Int → Except Unit (List RawRecord)
  typeSearch : String → String → Int → Except Unit (List RawRecord)

/-- Python string comparison `a < b`: lexicographic by code point (also the
order `list.sort` uses on the `europeanaId` keys). -/
def pyStrLt : List Char → List Char → Bool
  | [], [] => false
  | [], _ :: _ => true
  | _ :: _, [] => false
  | a :: as, b :: bs => if a < b then true else if b < a then false else pyStrLt as bs

/-- Substring test, Python `needle in haystack`. -/
def hasSub (needle : List Char) : List Char → Bool
  | [] => needle.isEmpty
  | c :: rest => needle.isPrefixOf (c :: rest) || hasSub needle rest

/-- Python `str.split()` with no argument: words separated by runs of
whitespace, no empty words. -/
def pySplitF : Nat → List Char → List (List Char)
  | 0, _ => []
  | _, [] => []
  | fuel + 1, s =>
    match s.dropWhile isPySpace with
    | [] => []
    | c :: rest => (c :: rest.takeWhile (fun d => !isPySpace d)) ::
        pySplitF fuel (rest.dropWhile (fun d => !isPySpace d))

/-- Python `temp_topic.split()`. -/
def pySplit (s : List Char) : List (List Char) :=
  pySplitF s.length s

/-- Captures of `re.findall(r'"([^"]*)"', topic)`: the texts between
successive quote pairs, scanning left to right. -/
def findQuotedF : Nat → List Char → List (List Char)
  | 0, _ => []
  | _, [] => []
  | fuel + 1, c :: rest =>
    if c = '"' then
      match rest.dropWhile (fun d => d ≠ '"') with
      | [] => []
      | _ :: after => rest.takeWhile (fun d => d ≠ '"') :: findQuotedF fuel after
    else findQuotedF fuel rest

/-- Quoted phrases of the topic. -/
def findQuoted (s : List Char) : List (List Char) :=
  findQuotedF s.length s

/-- Python `s.replace(pat, '')`: delete all non-overlapping occurrences of a
non-empty pattern, left to right. -/
def eraseAllF : Nat → List Char → List Char → List Char
  | 0, _, s => s
  | _, _, [] => []
  | fuel + 1, pat, c :: rest =>
    if pat.isPrefixOf (c :: rest) then
      eraseAllF fuel pat ((c :: rest).drop pat.length)
    else c :: eraseAllF fuel pat rest

/-- Deletion of every occurrence of `pat` from `s` (with `pat` non-empty at
all call sites: it is a phrase wrapped in two quote characters). -/
def eraseAll (pat s : List Char) : List Char :=
  eraseAllF s.length pat s

/-- Keyword-query construction of strategy 3 of `search_sources`: quoted
phrases are pulled out, the remaining text is split into significant words
(length > 3, not `and`/`or` case-insensitively), and words and phrases are
OR-joined, re-quoting multi-word phrases. -/
def keywordQuery (topic : String) : Option String :=
  let quotedPhrases := findQuoted topic.toList
  let tempTopic := quotedPhrases.foldl
    (fun t ph => eraseAll ('"' :: ph ++ ['"']) t) topic.toList
  let words := (pySplit tempTopic).filter
    (fun w => 3 < w.length &&
      !(String.mk (w.map Char.toLower) = "and" || String.mk (w.map Char.toLower) = "or"))
  let keywords := (words ++ quotedPhrases).map String.mk
  if keywords.isEmpty then none
  else some (String.intercalate " OR "
    (keywords.map (fun k => if k.toList.contains ' ' then "\"" ++ k ++ "\"" else k)))

/-- Stable descending insertion by `europeanaId`
(`all_results.sort(key=lambda x: x.get('europeanaId', ''), reverse=True)`;
Python's sort is stable and `reverse=True` keeps equal keys in original
order, which is exactly what inserting behind all `≥` keys does). -/
def insertDescSrc (x : Source) : List Source → List Source
  | [] => [x]
  | y :: ys =>
    if pyStrLt y.europeanaId.toList x.europeanaId.toList then x :: y :: ys
    else y :: insertDescSrc x ys

/-- The sorted source list, descending by `europeanaId`. -/
def sortDescSrc (l : List Source) : List Source :=
  l.foldl (fun acc x => insertDescSrc x acc) []

/-- Same stable descending sort for graphics. -/
def insertDescGr (x : Graphic) : List Graphic → List Graphic
  | [] => [x]
  | y :: ys =>
    if pyStrLt y.europeanaId.toList x.europeanaId.toList then x :: y :: ys
    else y :: insertDescGr x ys

/-- The sorted graphics list, descending by `europeanaId`. -/
def sortDescGr (l : List Graphic) : List Graphic :=
  l.foldl (fun acc x => insertDescGr x acc) []

/-- Strategy 4 of `search_sources`: one TYPE-filtered query per media type,
breaking out as soon as enough sources are collected; a failed call is
logged and the loop continues with the next type. -/
def typeStrategies (env : SearchEnv) (topic : String) (sourceCount : Int) :
    List String → List Source × List String → List Source × List String
  | [], acc => acc
  | mt :: rest, (srcs, seen) =>
    if sourceCount ≤ (srcs.length : Int) then (srcs, seen)
    else
      match env.sourceSearch topic (some mt) (sourceCount - srcs.length) with
      | Except.ok recs =>
        typeStrategies env topic sourceCount rest
          (runBatch topic mt ((srcs.length : Int) + 1) recs srcs seen)
      | Except.error _ => typeStrategies env topic sourceCount rest (srcs, seen)

/-- Strategy 1 of `search_sources`: the direct topic query. -/
def strategy1 (env : SearchEnv) (topic : String) (sourceCount : Int) :
    List Source × List String :=
  match env.sourceSearch topic none sourceCount with
  | Except.ok recs => runBatch topic "Source" 1 recs [] []
  | Except.error _ => ([], [])

/-- Strategy 2: the exact-phrase (quoted) query, attempted only while short
of `source_count` and only for a topic with no quotes or OR operators. -/
def strategy2 (env : SearchEnv) (topic : String) (sourceCount : Int)
    (acc : List Source × List String) : List Source × List String :=
  if (acc.1.length : Int) < sourceCount then
    if !(topic.toList.contains '"' || hasSub " OR ".toList topic.toList) then
      match env.sourceSearch ("\"" ++ topic ++ "\"") none sourceCount with
      | Except.ok recs =>
        runBatch topic "Source" ((acc.1.length : Int) + 1) recs acc.1 acc.2
      | Except.error _ => acc
    else acc
  else acc

/-- Strategy 3: the OR-joined keyword query, when keywords exist. -/
def strategy3 (env : SearchEnv) (topic : String) (sourceCount : Int)
    (acc : List Source × List String) : List Source × List String :=
  if (acc.1.length : Int) < sourceCount then
    match keywordQuery topic with
    | some kq =>
      match env.sourceSearch kq none sourceCount with
      | Except.ok recs =>
        runBatch topic "Source" ((acc.1.length : Int) + 1) recs acc.1 acc.2
      | Except.error _ => acc
    | none => acc
  else acc

/-- Strategy 4 guard: enter the per-media-type loop only while short. -/
def strategy4 (env : SearchEnv) (topic : String) (sourceCount : Int)
    (acc : List Source × List String) : List Source × List String :=
  if (acc.1.length : Int) < sourceCount then
    typeStrategies env topic sourceCount ["IMAGE", "VIDEO", "SOUND", "TEXT"] acc
  else acc

/-- Embedding of `SequentialReportingServer.search_sources`: the four
fallback strategies with a shared `seen_ids` set (strategies 2–4 run only
when strategy 1 fell short and the topic has no embedded OR operators),
then the descending sort by `europeanaId`, truncation to `source_count`,
and the provider-diversity analysis stored on the server.
`search_metrics` only feeds the logger and is not modelled. -/
def searchSources (env : SearchEnv) (topic : String) (sourceCount : Int) :
    List Source × ProviderAnalysis :=
  let acc1 := strategy1 env topic sourceCount
  let expanded :=
    if (acc1.1.length : Int) < sourceCount &&
        !hasSub " OR ".toList topic.toList then
      strategy4 env topic sourceCount
        (strategy3 env topic sourceCount (strategy2 env topic sourceCount acc1))
    else acc1
  let finalResults :=
    if 0 < sourceCount then (sortDescSrc expanded.1).take sourceCount.toNat
    else sortDescSrc expanded.1
  (finalResults, analyzeProviderDiversity finalResults)

/-- The graphics variant of the fallible record building (no `is_pdf`). -/
def buildGraphic (topic resultType : String) (r : RawRecord) (index : Int)
    (idField : String) : Except Unit Graphic :=
  match getRecordUrl r with
  | Except.error _ => Except.error ()
  | Except.ok url =>
    if url = "" then Except.error ()
    else
      match getStrOrHead r.title "Untitled" with
      | Except.error _ => Except.error ()
      | Except.ok title =>
        match getStrOrHead r.description "" with
        | Except.error _ => Except.error ()
        | Except.ok desc0 =>
          match getStrOrHead r.provider "Unknown Provider" with
          | Except.error _ => Except.error ()
          | Except.ok provider =>
            match getStrOrHead r.rights "Unknown Rights" with
            | Except.error _ => Except.error ()
            | Except.ok rights =>
              Except.ok
                { id := index
                  title := title
                  description :=
                    if desc0 = "" then
                      resultType ++ " related to " ++ topic ++ ": " ++ title
                    else desc0
                  url := url
                  provider := provider
                  thumbnail := extractThumbnail r
                  media_type := r.rtype.getD "Unknown"
                  rights := rights
                  date := r.year.getD "Unknown Date"
                  europeanaId := idField }

/-- The graphics variant of `process_result` (no `is_pdf` key). -/
def processGraphicResult (topic resultType : String) (seen : List String)
    (r : RawRecord) (index : Int) : Option Graphic × List String :=
  match r.id with
  | none => (none, seen)
  | some idField =>
    if idField = "" then (none, seen)
    else if seen.contains idField then (none, seen)
    else
      match buildGraphic topic resultType r index idField with
      | Except.error _ => (none, idField :: seen)
      | Except.ok g => (some g, idField :: seen)

/-- The record loop of one `search_graphics` strategy. -/
def runGraphicBatch (topic resultType : String) :
    Int → List RawRecord → List Graphic → List String → List Graphic × List String
  | _, [], acc, seen => (acc, seen)
  | i, r :: rest, acc, seen =>
    match processGraphicResult topic resultType seen r i with
    | (some g, seen') => runGraphicBatch topic resultType (i + 1) rest (acc ++ [g]) seen'
    | (none, seen') => runGraphicBatch topic resultType (i + 1) rest acc seen'

/-- Strategy 1 of `search_graphics`: the direct IMAGE query. -/
def gStrategy1 (env : SearchEnv) (topic : String) (count : Int) :
    List Graphic × List String :=
  match env.typeSearch "IMAGE" topic count with
  | Except.ok recs => runGraphicBatch topic "Image" 1 recs [] []
  | Except.error _ => ([], [])

/-- Strategy 2 of `search_graphics`: the keyword IMAGE query (significant
words OR-joined, no quoting, no stop-word filter). -/
def gStrategy2 (env : SearchEnv) (topic : String) (count : Int)
    (acc : List Graphic × List String) : List Graphic × List String :=
  if (acc.1.length : Int) < count then
    let keywords := ((pySplit topic.toList).filter (fun w => 3 < w.length)).map String.mk
    if keywords.isEmpty then acc
    else
      match env.typeSearch "IMAGE" (String.intercalate " OR " keywords)
          (count - acc.1.length) with
      | Except.ok recs =>
        runGraphicBatch topic "Image" ((acc.1.length : Int) + 1) recs acc.1 acc.2
      | Except.error _ => acc
  else acc

/-- Strategy 3 of `search_graphics`: the VIDEO query. -/
def gStrategy3 (env : SearchEnv) (topic : String) (count : Int)
    (acc : List Graphic × List String) : List Graphic × List String :=
  if (acc.1.length : Int) < count then
    match env.typeSearch "VIDEO" topic (count - acc.1.length) with
    | Except.ok recs =>
      runGraphicBatch topic "Video" ((acc.1.length : Int) + 1) recs acc.1 acc.2
    | Except.error _ => acc
  else acc

/-- Strategy 4 of `search_graphics`: the SOUND query. -/
def gStrategy4 (env : SearchEnv) (topic : String) (count : Int)
    (acc : List Graphic × List String) : List Graphic × List String :=
  if (acc.1.length : Int) < count then
    match env.typeSearch "SOUND" topic (count - acc.1.length) with
    | Except.ok recs =>
      runGraphicBatch topic "Audio" ((acc.1.length : Int) + 1) recs acc.1 acc.2
    | Except.error _ => acc
  else acc

/-- Embedding of `SequentialReportingServer.search_graphics`: IMAGE search,
keyword IMAGE search, then VIDEO and SOUND, sharing one `seen_ids` set;
finally the descending sort by `europeanaId` and truncation to `count` (the
only caller passes `count=5`, so `list[:count]` is plain truncation). -/
def searchGraphics (env : SearchEnv) (topic : String) (count : Int) : List Graphic :=
  let acc4 := gStrategy4 env topic count
    (gStrategy3 env topic count
      (gStrategy2 env topic count (gStrategy1 env topic count)))
  (sortDescGr acc4.1).take count.toNat

/-! ## Report planning -/

/-- A section stub of the plan. -/
structure PlanSection where
  title : String
  is_bibliography : Bool
  deriving DecidableEq, Repr

/-- The plan dict built by `create_plan`.  Its `total_sections` key is
`len(sections)`, computed after the skeleton (including the final
Conclusion) is assembled. -/
structure Plan where
  topic : String
  total_sections : Nat
  sections : List PlanSection
  current_section : Int
  steps : List String
  current_step : Nat
  next_step : String
  reportGuidelines : List String
  deriving DecidableEq, Repr

/-- Embedding of `SequentialReportingServer.create_plan`: the internal
budget is `min(page_count*2 + 1, 20)`; the skeleton starts with Bibliography
and Introduction, adds themed sections as the page count grows, fills the
remaining budget with numbered stubs, and always appends a final Conclusion
(after the fill, so `len(sections)` exceeds the budget by one whenever the
budget covers the themed skeleton). -/
def createPlan (topic : String) (pageCount : Int) : Plan :=
  let totalSections : Int := min (pageCount * 2 + 1) 20
  let base : List PlanSection :=
    [⟨"Bibliography", true⟩, ⟨"Introduction", false⟩] ++
    (if 2 ≤ pageCount then [⟨"Historical Context", false⟩] else []) ++
    (if 3 ≤ pageCount then [⟨"Main Analysis", false⟩, ⟨"Key Findings", false⟩] else []) ++
    (if 4 ≤ pageCount then [⟨"Detailed Examination", false⟩, ⟨"Cultural Significance", false⟩] else [])
  let remaining : Int := totalSections - base.length
  let filled := base ++ (List.range remaining.toNat).map
    (fun i => ⟨"Additional Analysis " ++ toString (i + 1), false⟩)
  let sections := filled ++ [⟨"Conclusion", false⟩]
  { topic := topic
    total_sections := sections.length
    sections := sections
    current_section := 0
    steps :=
      ["Initialize with topic",
       "Search for sources and extract PDF content",
       "Analyze PDF content for primary source material",
       "Create bibliography with PDFs marked",
       "Write introduction incorporating PDF insights",
       "Develop content sections using PDF extracts",
       "Include images when relevant to illustrate key points",
       "Write conclusion"]
    current_step := 0
    next_step := "Search for sources and extract PDF content"
    reportGuidelines :=
      ["CRITICAL: NEVER invent or fabricate any information. If sources are insufficient, explicitly state this limitation.",
       "Every statement in the report MUST be directly supported by the content from the sources found.",
       "Use specific citations ([source_id], page X) for EVERY factual claim in the report.",
       "Always include proper references with links to the original sources.",
       "Use PDF content to extract direct quotes and primary source material.",
       "Include images when they help illustrate important concepts.",
       "Explicitly mention where you found each piece of information and explain its relevance.",
       "Try to use at least two different source providers/institutions for varied perspectives.",
       "Include a brief source analysis at the end of each section.",
       "Make connections between different sources when possible.",
       "When analyzing PDFs, cite the specific page number if available.",
       "If sources are insufficient to address an aspect of the topic, clearly state this limitation rather than attempting to fill the gap."] }

/-! ## Input records and validation -/

/-- A numeric-like input value as `validate_section_data` classifies it:
a Python `int`, a string (accepted when it `isdigit`), or anything else. -/
inductive NumField where
  | int (n : Int) : NumField
  | str (s : String) : NumField
  | other : NumField
  deriving DecidableEq, Repr

/-- The `content` value: absent handled by the caller, `None` (mapped to the
empty string), a string, or a non-string (a `ValueError`). -/
inductive ContentField where
  | null : ContentField
  | str (s : String) : ContentField
  | other : ContentField
  deriving DecidableEq, Repr

/-- The `sources_used` value: a list of ids, `None`, or a truthy non-list
value (any other type). -/
inductive SUField where
  | list (l : List Int) : SUField
  | null : SUField
  | nonlist : SUField
  deriving DecidableEq, Repr

/-- Python truthiness of a `sources_used` value. -/
def SUField.truthy : SUField → Bool
  | SUField.list l => !l.isEmpty
  | SUField.null => false
  | SUField.nonlist => true

/-- The id list carried by a `sources_used` value (the non-list case never
reaches a consumer: validation rejects it for non-bibliography sections and
bibliography consumers are guarded by the same truthiness test Python uses). -/
def SUField.ids : SUField → List Int
  | SUField.list l => l
  | _ => []

/-- One opaque input record, with `none` for an absent key.  Values are
modelled after the coercions the code applies: `page_count`/`source_count`
carry the outcome of `int(x)` (`error` = the conversion raised, so the
default is used); boolean-flag fields carry the Python truthiness of the
value. -/
structure InputData where
  topic : Option String := none
  page_count : Option (Except Unit Int) := none
  source_count : Option (Except Unit Int) := none
  include_graphics : Option Bool := none
  search_sources : Option Bool := none
  confirm_sources : Option Bool := none
  section_number : Option NumField := none
  total_sections : Option NumField := none
  title : Option String := none
  content : Option ContentField := none
  is_bibliography : Option Bool := none
  sources_used : Option SUField := none
  next_section_needed : Option Bool := none

/-- A validated section record, as returned by `validate_section_data`. -/
structure SectionData where
  section_number : Int
  total_sections : Int
  title : String
  content : String
  is_bibliography : Bool
  sources_used : SUField
  next_section_needed : Bool
  deriving DecidableEq, Repr

/-- The four shapes `validate_section_data` can return, discriminated by
key presence exactly as the Python cascade does. -/
inductive Validated where
  | initData (topic : String) (page_count source_count : Option Int)
      (include_graphics : Option Bool) : Validated
  | searchData : Validated
  | confirmData (v : Bool) : Validated
  | sectionData (s : SectionData) : Validated
  deriving DecidableEq, Repr

/-- Coercion of `section_number`/`total_sections`: keep an `int`, convert a
digit string, otherwise `ValueError`.  Python `str.isdigit` is true for a
non-empty all-digit string (ASCII modelling of the digit class). -/
def coerceNum (v : NumField) (errMsg : String) : Except String Int :=
  match v with
  | NumField.int n => Except.ok n
  | NumField.str s =>
    if !s.isEmpty && s.toList.all Char.isDigit then Except.ok (digitsToInt s.toList)
    else Except.error errMsg
  | NumField.other => Except.error errMsg

/-- The gate `'sources_used' not in input or not input['sources_used'] or
not isinstance(input['sources_used'], list)`, negated: only a present,
non-empty list passes. -/
def suPresent : Option SUField → Bool
  | some (SUField.list (_ :: _)) => true
  | _ => false

/-- `content = input.get('content', ''); if content is None: content = ''`,
then the `isinstance(content, str)` check (`error` = `ValueError`). -/
def contentValue : Option ContentField → Except String String
  | none => Except.ok ""
  | some ContentField.null => Except.ok ""
  | some (ContentField.str s) => Except.ok s
  | some ContentField.other => Except.error "Invalid content: must be a string"

/-- `sources_used = input.get('sources_used', []); if sources_used is None:
sources_used = []` — the raw value is stored otherwise. -/
def suValue : Option SUField → SUField
  | none => SUField.list []
  | some SUField.null => SUField.list []
  | some v => v

/-- Embedding of `SequentialReportingServer.validate_section_data`.  An
`error` outcome models a raised `ValueError` (caught in `process_section`).
The Python source repeats the `confirm_sources` branch four times
(lines 113–130); the later copies are unreachable and the first two collapse
to: key present ⇒ return `{'confirm_sources': bool(value)}`. -/
def validateSectionData (input : InputData) : Except String Validated :=
  match input.topic with
  | some t =>
    Except.ok (Validated.initData t
      (input.page_count.map (fun r => match r with | Except.ok n => n | Except.error _ => 4))
      (input.source_count.map (fun r => match r with | Except.ok n => n | Except.error _ => 10))
      input.include_graphics)
  | none =>
    if input.search_sources.getD false then Except.ok Validated.searchData
    else
      match input.confirm_sources with
      | some v => Except.ok (Validated.confirmData v)
      | none =>
        match input.section_number with
        | none => Except.error "Missing required field: section_number"
        | some snv =>
          match input.total_sections with
          | none => Except.error "Missing required field: total_sections"
          | some tsv =>
            if !input.is_bibliography.getD false && !suPresent input.sources_used then
              Except.error "Non-bibliography sections must include sources_used with at least one source ID"
            else
              match coerceNum snv "Invalid sectionNumber: must be a number" with
              | Except.error e => Except.error e
              | Except.ok sn =>
                match coerceNum tsv "Invalid totalSections: must be a number" with
                | Except.error e => Except.error e
                | Except.ok ts =>
                  match contentValue input.content with
                  | Except.error e => Except.error e
                  | Except.ok content =>
                    if !input.is_bibliography.getD false &&
                        (pyStrip content.toList).length < 10 then
                      Except.error "Content is required for non-bibliography sections and must be meaningful"
                    else
                      Except.ok (Validated.sectionData
                        { section_number := sn
                          total_sections := ts
                          title := input.title.getD ("Section " ++ toString sn)
                          content := content
                          is_bibliography := input.is_bibliography.getD false
                          sources_used := suValue input.sources_used
                          next_section_needed := input.next_section_needed.getD true })

/-! ## Session state and outputs -/

/-- The mutable fields of `SequentialReportingServer` (the three API
clients, being stateless collaborators, live in the oracle environment). -/
structure SessState where
  topic : Option String
  page_count : Int
  source_count : Int
  include_graphics : Bool
  sources : List Source
  graphics : List Graphic
  report_sections : List SectionData
  plan : Option Plan
  current_step : Nat
  provider_analysis : Option ProviderAnalysis
  deriving DecidableEq

/-- The server state produced by `__init__` (`provider_analysis` starts as
the empty dict, modelled `none`). -/
def initServerState : SessState :=
  { topic := none, page_count := 4, source_count := 10, include_graphics := false
    sources := [], graphics := [], report_sections := [], plan := none
    current_step := 0, provider_analysis := none }

/-- Python truthiness of `self.topic` (`if not self.topic`). -/
def topicFalsy : Option String → Bool
  | none => true
  | some s => s.isEmpty

/-- The `media_counts` table of the search branch. -/
structure MediaCounts where
  image : Nat
  video : Nat
  sound : Nat
  text : Nat
  pdf : Nat
  other : Nat
  deriving DecidableEq, Repr

/-- One loop iteration over `self.sources`: bump the bucket named by
`media_type` (falling back to OTHER for unknown names), and additionally
bump PDF for a source whose URL looked like a PDF. -/
def mediaBump (mc : MediaCounts) (s : Source) : MediaCounts :=
  let mc1 :=
    if s.media_type = "IMAGE" then { mc with image := mc.image + 1 }
    else if s.media_type = "VIDEO" then { mc with video := mc.video + 1 }
    else if s.media_type = "SOUND" then { mc with sound := mc.sound + 1 }
    else if s.media_type = "TEXT" then { mc with text := mc.text + 1 }
    else if s.media_type = "PDF" then { mc with pdf := mc.pdf + 1 }
    else { mc with other := mc.other + 1 }
  if s.is_pdf then { mc1 with pdf := mc1.pdf + 1 } else mc1

/-- The media-type histogram of a source list. -/
def computeMediaCounts (srcs : List Source) : MediaCounts :=
  srcs.foldl mediaBump ⟨0, 0, 0, 0, 0, 0⟩

/-- The `sourceSummary` table of the search response. -/
structure SourceSummary where
  totalFound : Nat
  requestedSourceCount : Int
  sourcesReturned : Nat
  mediaTypeCounts : MediaCounts
  sourcesWithPDFContent : Nat
  providersCount : Nat
  graphicsFound : Nat
  deriving DecidableEq, Repr

/-- The payload of a successful search response (`source_message`). -/
structure SourceMessage where
  confirmationRequired : Bool
  sourceSummary : SourceSummary
  sources : List Source
  graphics : List Graphic
  analysisMessage : String
  providerDistribution : List (String × Nat)
  diverse : Bool
  pdfAnalysis : String
  sourcesWithContent : Bool
  nextStep : String
  deriving DecidableEq, Repr

/-- The payload of a successful section response.  `progress` is the Python
float `len(report_sections) / total_sections * 100` modelled as an exact
rational (its formatted rendering is presentation only).  `pdfSourcesUsed`
is always `None` because `process_result` never writes a `has_pdf` key. -/
structure SectionPayload where
  sectionNumber : Int
  totalSections : Int
  nextSectionNeeded : Bool
  progress : ℚ
  reportSectionsCount : Nat
  nextStep : String
  sources : Option (List Source)
  sourceAnalysisMessage : Option String
  pdfContentMessage : Option String
  pdfSourcesUsed : Option (List Int)
  sourceProviderCount : Nat
  imagesAvailable : Bool
  images : Option (List Graphic)
  citationWarning : Option String
  warningMessage : Option String
  sourceDiversityReminder : String
  noFabricationReminder : String
  citationReminder : String
  deriving DecidableEq

/-- The distinct result records `process_section` can hand back, one
constructor per `return` site.  Python wraps each payload as
`{'content': [{'text': json.dumps(payload)}]}` plus, for the error shapes,
the key `'isError': True`; the sole exception is the search-before-topic
return, whose text is a plain (non-JSON) string and which carries no
`isError` key.  The `detailed_message` traceback of the two catch-all
returns is process-introspection and not modelled. -/
inductive Output where
  | initOk (topic : String) (pageCount sourceCount : Int) (includeGraphics : Bool)
      (plan : Plan) (nextStep : String) : Output
  | noTopicText (msg : String) : Output
  | noSourcesFound (error status message : String) : Output
  | sourcesFound (m : SourceMessage) : Output
  | confirmOk (message nextStep : String) : Output
  | noSourcesCited (error status message : String) : Output
  | contentInvalid (error status : String) (paragraph_issues : List (Nat × ParaIssue))
      (message : String) : Output
  | citationsInvalid (error status : String) (uncited_sources invalid_citations : List Int)
      (uncited_paragraphs : List (Nat × ParaIssue)) (message : String) : Output
  | sectionOk (p : SectionPayload) : Output
  | validationFailed (veMsg : String) : Output
  | unexpectedFailure (excMsg : String) : Output
  deriving DecidableEq

/-- Whether the result record carries the `isError: True` key. -/
def Output.hasIsError : Output → Bool
  | Output.noSourcesFound _ _ _ => true
  | Output.noSourcesCited _ _ _ => true
  | Output.contentInvalid _ _ _ _ => true
  | Output.citationsInvalid _ _ _ _ _ _ => true
  | Output.validationFailed _ => true
  | Output.unexpectedFailure _ => true
  | _ => false

/-- The `error` entry of the serialized payload, when present. -/
def Output.errorText : Output → Option String
  | Output.noSourcesFound e _ _ => some e
  | Output.noSourcesCited e _ _ => some e
  | Output.contentInvalid e _ _ _ => some e
  | Output.citationsInvalid e _ _ _ _ _ => some e
  | Output.validationFailed m => some ("Validation error: " ++ m)
  | Output.unexpectedFailure m => some ("Unexpected error: " ++ m)
  | _ => none

/-- The `status` entry of the serialized payload, when present. -/
def Output.statusText : Output → Option String
  | Output.noSourcesFound _ s _ => some s
  | Output.noSourcesCited _ s _ => some s
  | Output.contentInvalid _ s _ _ => some s
  | Output.citationsInvalid _ s _ _ _ _ => some s
  | Output.validationFailed _ => some "failed"
  | Output.unexpectedFailure _ => some "failed"
  | _ => none

/-- Whether the result is one of the four successful response shapes. -/
def Output.isSuccessShape : Output → Bool
  | Output.initOk _ _ _ _ _ _ => true
  | Output.sourcesFound _ => true
  | Output.confirmOk _ _ => true
  | Output.sectionOk _ => true
  | _ => false

/-- Python list indexing with negative-index wrap-around; `none` models an
`IndexError`. -/
def pyIndex (l : List PlanSection) (i : Int) : Option PlanSection :=
  if 0 ≤ i then l.get? i.toNat
  else if 0 ≤ i + (l.length : Int) then l.get? (i + (l.length : Int)).toNat
  else none

/-- Tail of the section path after the section is appended: the `progress`
division (a `ZeroDivisionError` when the adjusted total is zero propagates
to the catch-all, with the append already performed), then the
source-usage analysis over the cited ids.  `pdf_sources_used` is always
empty (`has_pdf` is never written by `process_result`), so
`sources_with_content` is always false here and `warning_message` is always
the no-extractable-content warning for non-bibliography sections — which is
also why the advisory `analyze_citation_patterns` warning (computed at
lines 901–907 of the source) is dead: this block overwrites it. -/
def sectionFinish (st : SessState) (s : SectionData) (nextStep : String) :
    SessState × Output :=
  if s.total_sections = 0 then
    (st, Output.unexpectedFailure "division by zero")
  else
    let progress : ℚ := ((st.report_sections.length : ℚ) / (s.total_sections : ℚ)) * 100
    let analysisOn := !s.is_bibliography && s.sources_used.truthy
    let providersUsed :=
      s.sources_used.ids.filterMap (fun idv =>
        if 0 ≤ idv - 1 && idv - 1 < (st.sources.length : Int) then
          (st.sources.get? (idv - 1).toNat).map Source.provider
        else none)
    let distinctProv := providersUsed.dedup.length
    let warning :=
      if analysisOn then
        some ("WARNING: None of the cited sources have extractable content. " ++
          "This severely limits the ability to make factual claims. " ++
          "DO NOT fabricate information - focus only on what is available in the metadata.")
      else none
    let saMsg :=
      if analysisOn then
        some (if 1 < distinctProv then
            "This section uses sources from " ++ toString distinctProv ++
              " different providers. Continue using diverse sources in subsequent sections."
          else
            match providersUsed with
            | p :: _ => "This section uses sources from only one provider: " ++ p ++
                ". Try to incorporate sources from other providers in the next sections if possible."
            | [] => "This section doesn\x27t use any sources. Please include citations in your content.")
      else none
    let pdfMsg :=
      if analysisOn then
        some ("No sources with PDF content were used in this section. " ++
          "Be careful to limit claims to what is explicitly available in metadata.")
      else none
    (st, Output.sectionOk
      { sectionNumber := s.section_number
        totalSections := s.total_sections
        nextSectionNeeded := s.next_section_needed
        progress := progress
        reportSectionsCount := st.report_sections.length
        nextStep := nextStep
        sources := if s.is_bibliography then some st.sources else none
        sourceAnalysisMessage := saMsg
        pdfContentMessage := pdfMsg
        pdfSourcesUsed := none
        sourceProviderCount :=
          match st.provider_analysis with
          | some pa => pa.provider_distribution.length
          | none => 0
        imagesAvailable := st.include_graphics && 0 < st.graphics.length
        images :=
          if st.include_graphics && !st.graphics.isEmpty then some (st.graphics.take 3)
          else none
        citationWarning := warning
        warningMessage := warning
        sourceDiversityReminder :=
          "Remember to include proper references with links to original sources, and try to use sources from at least two different providers for varied perspectives."
        noFabricationReminder :=
          "CRITICAL: NEVER invent or fabricate any information. If sources are insufficient, explicitly state these limitations in your report."
        citationReminder :=
          "Every paragraph in your report must contain at least one citation to a source. All statements must be directly supported by the source material." })

/-- The two blocking citation checks run on a non-bibliography section
(lines 866–899 of the source): the per-paragraph presence check, then full
verification; `some` is the rejection returned to the caller. -/
def citationGate (s : SectionData) : Option Output :=
  if s.is_bibliography then none
  else
    let cv := verifyContentHasCitations s.content s.sources_used.ids
    if !cv.valid then
      some (Output.contentInvalid ("Content validation failed: " ++ cv.message) "failed"
        cv.paragraph_issues
        "Ensure every substantial paragraph contains citations to source material.")
    else
      let cc := verifyCitations s.content s.sources_used.ids
      if !cc.valid then
        some (Output.citationsInvalid ("Citation validation failed: " ++ cc.message) "failed"
          cc.uncited_sources cc.invalid_citations cc.uncited_paragraphs
          "Every source in sources_used must be cited in the content, and every paragraph must include at least one citation.")
      else none

/-- The section-submission path of `process_section`: citation gates for
non-bibliography sections (no mutation on failure), the upward
`total_sections` self-heal, the append to `report_sections`, the plan
pointer update with Python list-indexing semantics (a negative
`section_number` beyond the list length raises `IndexError` *after* the
append), and the bundled response.  The boxed `format_section` rendering
goes to stderr only and is not modelled. -/
def sectionProcess (st : SessState) (s : SectionData) : SessState × Output :=
  if !s.is_bibliography && !s.sources_used.truthy then
    (st, Output.noSourcesCited
      "No sources cited. Every non-bibliography section must cite specific sources."
      "failed"
      "Please include sources_used parameter with IDs of sources used in this section.")
  else
    match citationGate s with
    | some out => (st, out)
    | none =>
      let totalAdj := if s.total_sections < s.section_number then s.section_number else s.total_sections
      let s' := { s with total_sections := totalAdj }
      let st1 := { st with report_sections := st.report_sections ++ [s'] }
      match st.plan with
      | some p =>
        let st2 := { st1 with plan := some { p with current_section := s.section_number } }
        if s.section_number < (p.sections.length : Int) then
          match pyIndex p.sections s.section_number with
          | none => (st2, Output.unexpectedFailure "list index out of range")
          | some sec =>
            sectionFinish st2 s'
              ("Create section " ++ toString (s.section_number + 1) ++ ": " ++ sec.title)
        else sectionFinish st2 s' "Report complete"
      | none =>
        sectionFinish st1 s'
          (if !s.next_section_needed then "Report complete" else "Continue writing the report")

/-- Embedding of `SequentialReportingServer.process_section`: validate the
record, then dispatch by field presence — topic (re)initialization, source
search, confirmation, or section submission.  A `ValueError` from
validation and any unexpected exception are caught at this boundary and
rendered as tagged error outputs; nothing propagates to the caller. -/
def processSection (env : SearchEnv) (st : SessState) (input : InputData) :
    SessState × Output :=
  match validateSectionData input with
  | Except.error msg => (st, Output.validationFailed msg)
  | Except.ok (Validated.initData t pc sc ig) =>
    let pcv := pc.getD 4
    let scv := sc.getD 10
    let igv := ig.getD false
    let plan := createPlan t pcv
    ({ st with topic := some t, page_count := pcv, source_count := scv,
               include_graphics := igv, sources := [], graphics := [],
               report_sections := [], current_step := 0, plan := some plan },
     Output.initOk t pcv scv igv plan "Search for sources using the europeana_search tool")
  | Except.ok Validated.searchData =>
    if topicFalsy st.topic then
      (st, Output.noTopicText "Error: No topic specified. Please initialize with a topic first.")
    else
      let topic := st.topic.getD ""
      let res := searchSources env topic st.source_count
      let st1 := { st with sources := res.1, provider_analysis := some res.2 }
      if st1.sources.isEmpty then
        (st1, Output.noSourcesFound
          "No sources found for the topic. Cannot proceed with report generation."
          "failed"
          "No sources could be found on this topic. Please try a different search query or topic.")
      else
        let st2 := if st.include_graphics then { st1 with graphics := searchGraphics env topic 5 } else st1
        let st3 := { st2 with current_step := 1 }
        let summary : SourceSummary :=
          { totalFound := st3.sources.length
            requestedSourceCount := st.source_count
            sourcesReturned := st3.sources.length
            mediaTypeCounts := computeMediaCounts st3.sources
            sourcesWithPDFContent := 0
            providersCount := res.2.total_providers
            graphicsFound := if st.include_graphics then st3.graphics.length else 0 }
        (st3, Output.sourcesFound
          { confirmationRequired := true
            sourceSummary := summary
            sources := st3.sources
            graphics := if st.include_graphics then st3.graphics else []
            analysisMessage :=
              if res.2.diverse_sources then
                "Found " ++ toString st3.sources.length ++ " sources from " ++
                  toString res.2.total_providers ++
                  " different providers. You should use sources from multiple providers in your report for diverse perspectives."
              else
                "All sources are from a single provider: " ++ res.2.primary_provider ++
                  ". Please note this limitation in your report."
            providerDistribution := res.2.provider_distribution
            diverse := res.2.diverse_sources
            pdfAnalysis :=
              "WARNING: No sources with readable PDF content were found. This may limit the ability to create a detailed factual report. DO NOT fabricate information - focus only on what is available in the metadata."
            sourcesWithContent := false
            nextStep := "Please confirm if you want to proceed with generating the report using these sources." })
  | Except.ok (Validated.confirmData v) =>
    if v then
      ({ st with current_step := 2 },
       Output.confirmOk "Source selection confirmed. Proceeding with report generation."
         "Create bibliography section")
    else
      -- `{'confirm_sources': False}` is re-validated to the same dict and
      -- falls into the section path, where `is_bibliography` defaults to
      -- False and `sources_used` is absent, so the first citation gate
      -- rejects it before any field of the dict is indexed.
      (st, Output.noSourcesCited
        "No sources cited. Every non-bibliography section must cite specific sources."
        "failed"
        "Please include sources_used parameter with IDs of sources used in this section.")
  | Except.ok (Validated.sectionData s) => sectionProcess st s

/-! ## Fixtures for concrete runs -/

/-- A raw record with origin identifier `"a"`. -/
def recA : RawRecord :=
  { id := some "a", edmIsShownBy := some (StrField.str "http://x/a.jpg")
    provider := some (StrField.str "ProvA"), rtype := some "IMAGE" }

/-- A raw record with origin identifier `"b"`. -/
def recB : RawRecord :=
  { id := some "b", edmIsShownBy := some (StrField.str "http://x/b.jpg")
    provider := some (StrField.str "ProvB"), rtype := some "TEXT" }

/-- An environment whose direct-topic search strategy returns `recA` then
`recB`, with every other call returning nothing. -/
def envTwoRecords : SearchEnv :=
  { sourceSearch := fun q t _ =>
      if q = "t" && t = none then Except.ok [recA, recB] else Except.ok []
    typeSearch := fun _ _ _ => Except.ok [] }

/-- An environment in which every search returns nothing. -/
def envEmpty : SearchEnv :=
  { sourceSearch := fun _ _ _ => Except.ok []
    typeSearch := fun _ _ _ => Except.ok [] }

/-! ## Claim theorems -/

/-- C6: the claim states `create_plan(topic, page_count)` returns
`total_sections = min(page_count*2 + 1, 20)`, in particular `20` at
`page_count = 100`.  The code computes that budget internally, but appends
the final Conclusion stub after filling the budget, so the returned
`total_sections` (`len(sections)`) is `21` at `page_count = 100` — off by
one from the cap its own comment announces — and `10` at the default
`page_count = 4` (where the budget is `9`). -/
theorem c6_create_plan_total_sections_eval :
    (createPlan "Cultural heritage" 100).total_sections = 21 ∧
      (createPlan "Cultural heritage" 4).total_sections = 10 :=
  ⟨rfl, rfl⟩

/-- C4: the claim states the source list returned by `search_sources`
carries ids dense `1..N` in list order.  Two records suffice to refute it:
they are enumerated with ids 1 and 2, but the final sort by descending
`europeanaId` reverses them, so the returned list carries ids `[2, 1]` —
while `process_section` elsewhere looks sources up as
`self.sources[source_id - 1]`, relying on the dense layout. -/
theorem c4_discovery_ids_not_dense :
    ((searchSources envTwoRecords "t" 2).1.map Source.id) = [2, 1] ∧
      ((searchSources envTwoRecords "t" 2).1.map Source.europeanaId) = ["b", "a"] := by
  decide

/-- C10: an input record carrying `confirm_sources = False` (key present,
value false) is not treated as a confirmation: validation returns
`{'confirm_sources': False}`, the confirmation branch tests falsy, and the
record falls through to the section path, which rejects it with the tagged
`isError` payload about missing cited sources — with the session state
untouched. -/
theorem c10_confirm_false_not_confirmation :
    ∀ (env : SearchEnv) (st : SessState),
      processSection env st { confirm_sources := some false } =
        (st, Output.noSourcesCited
          "No sources cited. Every non-bibliography section must cite specific sources."
          "failed"
          "Please include sources_used parameter with IDs of sources used in this section.") := by
  intro env st
  rfl

/-! ## Lemmas about the citation verifier folds -/

theorem snd_mem_of_mem_enumFrom {α : Type} :
    ∀ (l : List α) (n : Nat) (x : Nat × α), x ∈ l.enumFrom n → x.2 ∈ l := by
  intro l
  induction l with
  | nil => intro n x h; cases h
  | cons a t ih =>
    intro n x h
    rcases List.mem_cons.mp h with h | h
    · subst h; exact List.mem_cons_self _ _
    · exact List.mem_cons_of_mem _ (ih _ _ h)

theorem exists_mem_enumFrom_of_mem {α : Type} :
    ∀ (l : List α) (n : Nat) (a : α), a ∈ l → ∃ i, (i, a) ∈ l.enumFrom n := by
  intro l
  induction l with
  | nil => intro n a h; cases h
  | cons b t ih =>
    intro n a h
    rcases List.mem_cons.mp h with h | h
    · exact ⟨n, by simp [h]⟩
    · obtain ⟨i, hi⟩ := ih (n + 1) a h
      exact ⟨i, List.mem_cons_of_mem _ hi⟩

theorem setInsert_mem (x : Int) :
    ∀ (xs s : List Int), x ∈ setInsert s xs ↔ x ∈ s ∨ x ∈ xs := by
  intro xs
  induction xs with
  | nil => intro s; simp [setInsert]
  | cons y ys ih =>
    intro s
    have hstep : setInsert s (y :: ys) = setInsert (if s.contains y then s else s ++ [y]) ys := rfl
    rw [hstep, ih]
    by_cases hc : s.contains y
    · have hy : y ∈ s := by simpa using hc
      simp only [hc, if_pos]
      constructor
      · rintro (h | h)
        · exact Or.inl h
        · exact Or.inr (List.mem_cons_of_mem _ h)
      · rintro (h | h)
        · exact Or.inl h
        · rcases List.mem_cons.mp h with rfl | h
          · exact Or.inl hy
          · exact Or.inr h
    · simp only [hc, if_neg, Bool.false_eq_true, not_false_iff, if_false]
      constructor
      · rintro (h | h)
        · rcases List.mem_append.mp h with h | h
          · exact Or.inl h
          · simp at h; subst h; exact Or.inr (List.mem_cons_self _ _)
        · exact Or.inr (List.mem_cons_of_mem _ h)
      · rintro (h | h)
        · exact Or.inl (List.mem_append.mpr (Or.inl h))
        · rcases List.mem_cons.mp h with rfl | h
          · exact Or.inl (List.mem_append.mpr (Or.inr (by simp)))
          · exact Or.inr h

theorem vcStep_cited (su : List Int) (st : VCState) (ip : Nat × List Char) :
    (vcStep su st ip).cited =
      if (pyStrip ip.2).length < 20 then st.cited
      else setInsert st.cited (findCitations ip.2) := by
  unfold vcStep
  split
  · rfl
  · dsimp only
    split
    · split <;> rfl
    · split <;> rfl

theorem vcStep_valid_true (su : List Int) (st : VCState) (ip : Nat × List Char)
    (h : (vcStep su st ip).valid = true) :
    st.valid = true ∧ (20 ≤ (pyStrip ip.2).length →
      findCitations ip.2 ≠ [] ∧ ∀ c ∈ findCitations ip.2, c ∈ su) := by
  unfold vcStep at h
  by_cases hlen : (pyStrip ip.2).length < 20
  · rw [if_pos hlen] at h
    exact ⟨h, fun h20 => absurd hlen (Nat.not_lt.mpr h20)⟩
  · rw [if_neg hlen] at h
    dsimp only at h
    by_cases hi : ((findCitations ip.2).filter (fun c => !su.contains c)).isEmpty = true
    · rw [if_pos hi] at h
      by_cases hc : (findCitations ip.2).isEmpty = true
      · rw [if_pos hc] at h
        exact absurd h (by simp)
      · rw [if_neg hc] at h
        refine ⟨h, fun _ => ⟨by simpa [List.isEmpty_iff] using hc, ?_⟩⟩
        intro c hcmem
        have hfil := List.isEmpty_iff.mp hi
        have := List.filter_eq_nil_iff.mp hfil c hcmem
        simpa using this
    · rw [if_neg hi] at h
      by_cases hc : (findCitations ip.2).isEmpty = true
      · rw [if_pos hc] at h
        exact absurd h (by simp)
      · rw [if_neg hc] at h
        exact absurd h (by simp)

theorem vc_foldl_valid (su : List Int) :
    ∀ (l : List (Nat × List Char)) (st : VCState),
      (l.foldl (vcStep su) st).valid = true →
      st.valid = true ∧ ∀ ip ∈ l, 20 ≤ (pyStrip ip.2).length →
        findCitations ip.2 ≠ [] ∧ ∀ c ∈ findCitations ip.2, c ∈ su := by
  intro l
  induction l with
  | nil => intro st h; exact ⟨h, fun ip hm => absurd hm (List.not_mem_nil ip)⟩
  | cons ip t ih =>
    intro st h
    rw [List.foldl_cons] at h
    obtain ⟨h1, h2⟩ := ih _ h
    obtain ⟨h3, h4⟩ := vcStep_valid_true su st ip h1
    refine ⟨h3, ?_⟩
    intro jp hm
    rcases List.mem_cons.mp hm with rfl | hm'
    · exact h4
    · exact h2 jp hm'

theorem vc_foldl_cited (su : List Int) :
    ∀ (l : List (Nat × List Char)) (st : VCState) (x : Int),
      x ∈ (l.foldl (vcStep su) st).cited ↔
        x ∈ st.cited ∨ ∃ ip ∈ l, 20 ≤ (pyStrip ip.2).length ∧ x ∈ findCitations ip.2 := by
  intro l
  induction l with
  | nil => intro st x; simp
  | cons ip t ih =>
    intro st x
    rw [List.foldl_cons, ih]
    by_cases hlen : (pyStrip ip.2).length < 20
    · rw [vcStep_cited, if_pos hlen]
      constructor
      · rintro (h | h)
        · exact Or.inl h
        · exact Or.inr (by obtain ⟨jp, hjp, hq⟩ := h; exact ⟨jp, List.mem_cons_of_mem _ hjp, hq⟩)
      · rintro (h | ⟨jp, hjp, hq, hx⟩)
        · exact Or.inl h
        · rcases List.mem_cons.mp hjp with rfl | hjp'
          · exact absurd hlen (Nat.not_lt.mpr hq)
          · exact Or.inr ⟨jp, hjp', hq, hx⟩
    · rw [vcStep_cited, if_neg hlen, setInsert_mem]
      constructor
      · rintro ((h | h) | h)
        · exact Or.inl h
        · exact Or.inr ⟨ip, List.mem_cons_self _ _, Nat.not_lt.mp hlen, h⟩
        · exact Or.inr (by obtain ⟨jp, hjp, hq⟩ := h; exact ⟨jp, List.mem_cons_of_mem _ hjp, hq⟩)
      · rintro (h | ⟨jp, hjp, hq, hx⟩)
        · exact Or.inl (Or.inl h)
        · rcases List.mem_cons.mp hjp with rfl | hjp'
          · exact Or.inl (Or.inr hx)
          · exact Or.inr ⟨jp, hjp', hq, hx⟩

/-- C1: soundness direction of full verification — a `valid` result entails
that every qualifying paragraph carries at least one citation whose ids all
lie in `sources_used`, and that every id of `sources_used` is cited in some
paragraph of the content; and the spec's concrete case — `sources_used`
`[1, 2]` with content citing only `[1]` is invalid with
`uncited_sources = [2]`. -/
theorem c1_full_verification_only_if :
    (∀ (content : String) (su : List Int), su ≠ [] →
      (verifyCitations content su).valid = true →
      (∀ p ∈ paragraphs content, 20 ≤ (pyStrip p).length →
        findCitations p ≠ [] ∧ ∀ c ∈ findCitations p, c ∈ su) ∧
      (∀ s ∈ su, ∃ p, p ∈ paragraphs content ∧ s ∈ findCitations p)) ∧
    ((verifyCitations
        "This is a sufficiently long paragraph citing a source [1] properly."
        [1, 2]).valid = false ∧
      (verifyCitations
        "This is a sufficiently long paragraph citing a source [1] properly."
        [1, 2]).uncited_sources = [2]) := by
  constructor
  · intro content su _ hv
    simp only [verifyCitations] at hv
    rw [Bool.and_eq_true, Bool.and_eq_true] at hv
    obtain ⟨⟨hvalid, huncited⟩, _⟩ := hv
    have hfold := vc_foldl_valid su (paragraphs content).enum ⟨[], [], true⟩ hvalid
    constructor
    · intro p hp h20
      obtain ⟨i, hi⟩ := exists_mem_enumFrom_of_mem (paragraphs content) 0 p hp
      exact hfold.2 (i, p) hi h20
    · intro s hs
      have hmem : s ∈ ((paragraphs content).enum.foldl (vcStep su) ⟨[], [], true⟩).cited := by
        have hnil := List.isEmpty_iff.mp huncited
        have := List.filter_eq_nil_iff.mp hnil s hs
        simpa using this
      rcases (vc_foldl_cited su (paragraphs content).enum ⟨[], [], true⟩ s).mp hmem with h | h
      · cases h
      · obtain ⟨ip, hip, _, hx⟩ := h
        exact ⟨ip.2, snd_mem_of_mem_enumFrom _ _ _ hip, hx⟩
  · constructor <;> decide

/-- Witness for C1: the general direction applied at the spec's passing
example (`[1]` cited, `sources_used = [1]`), instantiated at its single
paragraph. -/
theorem c1_full_verification_only_if_witness :
    findCitations
      "This is a sufficiently long paragraph citing a source [1] properly.".toList ≠ [] :=
  ((c1_full_verification_only_if.1
      "This is a sufficiently long paragraph citing a source [1] properly."
      [1] (by decide) (by decide)).1
    "This is a sufficiently long paragraph citing a source [1] properly.".toList
    (by decide) (by decide)).1

/-- C2: the presence check exempts paragraphs under 20 stripped characters,
so `content="Short."` passes for any non-empty `sources_used`; and a single
qualifying paragraph with no citation token fails with exactly one
paragraph issue (`sources_used = [1]`). -/
theorem c2_presence_check :
    (∀ su : List Int, su ≠ [] →
      verifyContentHasCitations "Short." su =
        { valid := true, paragraph_issues := [], message := "All paragraphs properly cited" }) ∧
    (∀ (content : String) (p : List Char),
      paragraphs content = [p] → 20 ≤ (pyStrip p).length → findCitations p = [] →
      (verifyContentHasCitations content [1]).valid = false ∧
        (verifyContentHasCitations content [1]).paragraph_issues =
          [(0, ParaIssue.noCitations)]) := by
  constructor
  · intro su hsu
    have h : su.isEmpty = false := by
      cases su with
      | nil => exact absurd rfl hsu
      | cons a l => rfl
    unfold verifyContentHasCitations
    rw [h]
    rfl
  · intro content p hpara h20 hcites
    have hstep : pvStep [1] [] (0, p) = [(0, ParaIssue.noCitations)] := by
      unfold pvStep
      rw [if_neg (Nat.not_lt.mpr h20)]
      dsimp only
      rw [hcites]
      rfl
    unfold verifyContentHasCitations
    rw [hpara]
    simp only [List.isEmpty_cons, List.enum, List.enumFrom, List.foldl, hstep]
    exact ⟨rfl, rfl⟩

/-- Witness for C2: both parts at the spec's concrete inputs. -/
theorem c2_presence_check_witness :
    verifyContentHasCitations "Short." [1] =
      { valid := true, paragraph_issues := [], message := "All paragraphs properly cited" } ∧
    (verifyContentHasCitations
        "This is a long enough paragraph with no citation marker at all." [1]).valid = false ∧
    (verifyContentHasCitations
        "This is a long enough paragraph with no citation marker at all." [1]).paragraph_issues =
      [(0, ParaIssue.noCitations)] :=
  ⟨c2_presence_check.1 [1] (by decide),
   (c2_presence_check.2
      "This is a long enough paragraph with no citation marker at all."
      "This is a long enough paragraph with no citation marker at all.".toList
      (by decide) (by decide) (by decide)).1,
   (c2_presence_check.2
      "This is a long enough paragraph with no citation marker at all."
      "This is a long enough paragraph with no citation marker at all.".toList
      (by decide) (by decide) (by decide)).2⟩

/-! ## Lemmas about the workflow controller -/

theorem sectionFinish_fst (st : SessState) (s : SectionData) (ns : String) :
    (sectionFinish st s ns).1 = st := by
  unfold sectionFinish
  split <;> rfl

theorem sectionProcess_sources (st : SessState) (s : SectionData) :
    (sectionProcess st s).1.sources = st.sources := by
  unfold sectionProcess
  split
  · rfl
  · rcases citationGate s with _ | out
    · repeat' split
      all_goals simp [sectionFinish_fst]
    · rfl

theorem validate_no_keys_shape (input : InputData)
    (h1 : input.topic = none) (h2 : input.search_sources = none)
    (h3 : input.confirm_sources = none) :
    ∀ v, validateSectionData input = Except.ok v → ∃ s, v = Validated.sectionData s := by
  intro v hv
  unfold validateSectionData at hv
  rw [h1, h2, h3] at hv
  simp only [Option.getD_none, Bool.false_eq_true, if_false] at hv
  repeat' split at hv
  all_goals first
    | exact ⟨_, (Except.ok.inj hv).symm⟩
    | exact absurd hv (by simp)

/-- C3: an input record classified as a section submission (no `topic`,
`search_sources` or `confirm_sources` key) never changes the session's
Source list, whether the submission is accepted, rejected by structural
validation, or rejected by a citation gate. -/
theorem c3_section_submission_preserves_sources :
    ∀ (env : SearchEnv) (st : SessState) (input : InputData),
      input.topic = none → input.search_sources = none → input.confirm_sources = none →
      ((processSection env st input).1).sources = st.sources := by
  intro env st input h1 h2 h3
  unfold processSection
  rcases hv : validateSectionData input with m | v
  · rfl
  · obtain ⟨s, rfl⟩ := validate_no_keys_shape input h1 h2 h3 v hv
    exact sectionProcess_sources st s

/-- Witness for C3: a section submission with a missing `total_sections`
field (a structural-validation rejection) leaves the empty source list of a
fresh server untouched. -/
theorem c3_section_submission_preserves_sources_witness :
    ((processSection envEmpty initServerState
        { section_number := some (NumField.int 1) }).1).sources = initServerState.sources :=
  c3_section_submission_preserves_sources envEmpty initServerState
    { section_number := some (NumField.int 1) } rfl rfl rfl

/-! ## The accepted-section invariant -/

/-- The part of the accepted-section invariant that the code actually
enforces: a non-bibliography section carries a non-empty `sources_used`
list and content of stripped length at least the minimum (10). -/
def GoodSection (s : SectionData) : Prop :=
  s.is_bibliography = true ∨
    ((∃ l, s.sources_used = SUField.list l ∧ l ≠ []) ∧
      10 ≤ (pyStrip s.content.toList).length)

theorem validate_sectionData_good (input : InputData) (s : SectionData)
    (hv : validateSectionData input = Except.ok (Validated.sectionData s)) :
    GoodSection s := by
  unfold validateSectionData at hv
  rcases ht : input.topic with _ | t
  swap
  · rw [ht] at hv; exact absurd hv (by simp)
  rw [ht] at hv
  dsimp only at hv
  by_cases hss : input.search_sources.getD false = true
  · rw [if_pos hss] at hv; exact absurd hv (by simp)
  rw [if_neg hss] at hv
  rcases hcs : input.confirm_sources with _ | v
  swap
  · rw [hcs] at hv; exact absurd hv (by simp)
  rw [hcs] at hv
  dsimp only at hv
  rcases hsn : input.section_number with _ | snv
  · rw [hsn] at hv; exact absurd hv (by simp)
  rw [hsn] at hv
  dsimp only at hv
  rcases hts : input.total_sections with _ | tsv
  · rw [hts] at hv; exact absurd hv (by simp)
  rw [hts] at hv
  dsimp only at hv
  by_cases hgate :
      (!input.is_bibliography.getD false && !suPresent input.sources_used) = true
  · rw [if_pos hgate] at hv; exact absurd hv (by simp)
  rw [if_neg hgate] at hv
  rcases hc1 : coerceNum snv "Invalid sectionNumber: must be a number" with e | sn
  · rw [hc1] at hv; exact absurd hv (by simp)
  rw [hc1] at hv
  dsimp only at hv
  rcases hc2 : coerceNum tsv "Invalid totalSections: must be a number" with e | ts
  · rw [hc2] at hv; exact absurd hv (by simp)
  rw [hc2] at hv
  dsimp only at hv
  rcases hcv : contentValue input.content with e | content
  · rw [hcv] at hv; exact absurd hv (by simp)
  rw [hcv] at hv
  dsimp only at hv
  by_cases hlen :
      (!input.is_bibliography.getD false && decide ((pyStrip content.toList).length < 10)) = true
  · rw [if_pos hlen] at hv; exact absurd hv (by simp)
  rw [if_neg hlen] at hv
  have hs := Validated.sectionData.inj (Except.ok.inj hv)
  subst hs
  by_cases hbib : input.is_bibliography.getD false = true
  · exact Or.inl hbib
  · have hbib' : input.is_bibliography.getD false = false := by
      simpa using hbib
    refine Or.inr ⟨?_, ?_⟩
    · have hpres : suPresent input.sources_used = true := by
        by_contra hp
        have hp' : suPresent input.sources_used = false := by simpa using hp
        exact hgate (by rw [hbib', hp']; rfl)
      rcases hval : input.sources_used with _ | v
      · rw [hval] at hpres; exact absurd hpres (by simp [suPresent])
      · rcases v with l | _ | _
        · rcases l with _ | ⟨x, xs⟩
          · rw [hval] at hpres; exact absurd hpres (by simp [suPresent])
          · exact ⟨x :: xs, by simp [hval, suValue], by simp⟩
        · rw [hval] at hpres; exact absurd hpres (by simp [suPresent])
        · rw [hval] at hpres; exact absurd hpres (by simp [suPresent])
    · have : ¬((pyStrip content.toList).length < 10) := by
        intro hlt
        refine hlen ?_
        rw [hbib']
        simpa using hlt
      exact Nat.not_lt.mp this

theorem sectionProcess_report (st : SessState) (s : SectionData) :
    (sectionProcess st s).1.report_sections = st.report_sections ∨
      (sectionProcess st s).1.report_sections = st.report_sections ++
        [{ s with total_sections :=
            if s.total_sections < s.section_number then s.section_number
            else s.total_sections }] := by
  unfold sectionProcess
  split
  · exact Or.inl rfl
  · rcases citationGate s with _ | out
    · repeat' split
      all_goals simp_all [sectionFinish_fst]
    · exact Or.inl rfl

/-- Environment for the invalid-id run: the direct strategy yields exactly
one record. -/
def c7Env : SearchEnv :=
  { sourceSearch := fun _ _ _ => Except.ok [recA]
    typeSearch := fun _ _ _ => Except.ok [] }

/-- A section submission citing source id 2 throughout, with
`sources_used = [2]`. -/
def c7SectionInput : InputData :=
  { section_number := some (NumField.int 1)
    total_sections := some (NumField.int 1)
    title := some "Findings"
    content := some (ContentField.str
      "This paragraph is long enough and cites the source [2] fine.")
    sources_used := some (SUField.list [2]) }

/-- The session after init → discovery (one source found) → confirmation. -/
def c7ConfirmedState : SessState :=
  (processSection c7Env
    (processSection c7Env
      (processSection c7Env initServerState { topic := some "t" }).1
      { search_sources := some true }).1
    { confirm_sources := some true }).1

/-- The session after additionally submitting `c7SectionInput`. -/
def c7FinalState : SessState :=
  (processSection c7Env c7ConfirmedState c7SectionInput).1

/-- C7, counterexample: a session that discovered exactly one Source accepts
and records a non-bibliography section whose `sources_used` is `[2]` — an
id with no corresponding Source — because neither validation nor the
citation gates check ids against the Source list.  This refutes
"an accepted section can never carry an id with no corresponding Source". -/
theorem c7_invalid_id_accepted_counterexample :
    c7FinalState.sources.length = 1 ∧
      c7FinalState.report_sections.map SectionData.sources_used = [SUField.list [2]] ∧
      c7FinalState.report_sections.map SectionData.is_bibliography = [false] := by
  decide

/-- C7, amended: every non-bibliography Section recorded in the session has
a non-empty `sources_used` list and content of stripped length at least the
minimum (10) — but ids are *not* checked against the Source list, so the
"all valid ids" part of the claim does not hold (see the counterexample).
Stated as preservation: `process_section` maintains the invariant. -/
theorem c7_accepted_section_invariant_amended :
    ∀ (env : SearchEnv) (st : SessState) (input : InputData),
      (∀ sec ∈ st.report_sections, GoodSection sec) →
      ∀ sec ∈ (processSection env st input).1.report_sections, GoodSection sec := by
  intro env st input hinv sec hmem
  unfold processSection at hmem
  rcases hval : validateSectionData input with m | v
  · rw [hval] at hmem
    exact hinv sec hmem
  · rw [hval] at hmem
    rcases v with ⟨t, pc, sc, ig⟩ | _ | cv | s
    · simp at hmem
    · dsimp only at hmem
      repeat' split at hmem
      all_goals exact hinv sec (by simpa using hmem)
    · dsimp only at hmem
      split at hmem
      all_goals exact hinv sec (by simpa using hmem)
    · rcases sectionProcess_report st s with h | h
      · rw [h] at hmem
        exact hinv sec hmem
      · rw [h] at hmem
        rcases List.mem_append.mp hmem with h2 | h2
        · exact hinv sec h2
        · have hsec : sec = { s with total_sections :=
              if s.total_sections < s.section_number then s.section_number
              else s.total_sections } := by simpa using h2
          subst hsec
          rcases validate_sectionData_good input s hval with hb | ⟨hsu, hlen⟩
          · exact Or.inl hb
          · exact Or.inr ⟨hsu, hlen⟩

/-- Witness for C7's amended invariant: the recorded section of the
counterexample run satisfies the (amended) invariant. -/
theorem c7_accepted_section_invariant_amended_witness :
    GoodSection
      { section_number := 1, total_sections := 1, title := "Findings"
        content := "This paragraph is long enough and cites the source [2] fine."
        is_bibliography := false, sources_used := SUField.list [2]
        next_section_needed := true } := by
  have hrs : c7ConfirmedState.report_sections = [] := by decide
  exact c7_accepted_section_invariant_amended c7Env c7ConfirmedState c7SectionInput
    (fun sec h => absurd (hrs ▸ h) (List.not_mem_nil sec)) _ (by decide)

/-! ## The error boundary -/

theorem output_error_text (o : Output) :
    o.hasIsError = true → o.errorText ≠ none := by
  cases o <;> simp [Output.hasIsError, Output.errorText]

theorem output_error_status_isSome (o : Output) :
    o.hasIsError = true → o.statusText ≠ none := by
  cases o <;> simp [Output.hasIsError, Output.statusText]

theorem output_not_error_shape (o : Output) :
    o.hasIsError = false → o.isSuccessShape = true ∨ ∃ m, o = Output.noTopicText m := by
  cases o <;> simp [Output.hasIsError, Output.isSuccessShape]

theorem citationGate_shape (s : SectionData) (out : Output)
    (hg : citationGate s = some out) :
    (∃ a c d, out = Output.contentInvalid a "failed" c d) ∨
      (∃ a c d e f, out = Output.citationsInvalid a "failed" c d e f) := by
  unfold citationGate at hg
  split at hg
  · exact absurd hg (by simp)
  · dsimp only at hg
    split at hg
    · exact Or.inl ⟨_, _, _, (Option.some.inj hg).symm⟩
    · split at hg
      · exact Or.inr ⟨_, _, _, _, _, (Option.some.inj hg).symm⟩
      · exact absurd hg (by simp)

theorem citationGate_not_noTopic (s : SectionData) (out : Output)
    (hg : citationGate s = some out) : ∀ m, out ≠ Output.noTopicText m := by
  intro m
  rcases citationGate_shape s out hg with ⟨a, c, d, h⟩ | ⟨a, c, d, e, f, h⟩ <;>
    simp [h]

theorem citationGate_status (s : SectionData) (out : Output)
    (hg : citationGate s = some out) : out.statusText = some "failed" := by
  rcases citationGate_shape s out hg with ⟨a, c, d, h⟩ | ⟨a, c, d, e, f, h⟩ <;>
    simp [h, Output.statusText]

theorem sectionFinish_not_noTopic (st : SessState) (s : SectionData) (ns : String)
    (m : String) : (sectionFinish st s ns).2 ≠ Output.noTopicText m := by
  unfold sectionFinish
  split <;> simp

theorem sectionFinish_status (st : SessState) (s : SectionData) (ns : String) :
    (sectionFinish st s ns).2.statusText = none ∨
      (sectionFinish st s ns).2.statusText = some "failed" := by
  unfold sectionFinish
  split
  · exact Or.inr rfl
  · exact Or.inl rfl

theorem sectionProcess_not_noTopic (st : SessState) (s : SectionData) (m : String) :
    (sectionProcess st s).2 ≠ Output.noTopicText m := by
  unfold sectionProcess
  split
  · simp
  · rcases hg : citationGate s with _ | out
    · repeat' split
      all_goals first
        | apply sectionFinish_not_noTopic
        | simp_all
    · simpa using citationGate_not_noTopic s out hg m

theorem sectionProcess_status (st : SessState) (s : SectionData) :
    (sectionProcess st s).2.statusText = none ∨
      (sectionProcess st s).2.statusText = some "failed" := by
  unfold sectionProcess
  split
  · exact Or.inr rfl
  · rcases hg : citationGate s with _ | out
    · repeat' split
      all_goals first
        | exact Or.inr rfl
        | exact sectionFinish_status _ _ _
        | simp_all
    · exact Or.inr (citationGate_status s out hg)

theorem processSection_status (env : SearchEnv) (st : SessState) (input : InputData) :
    (processSection env st input).2.statusText = none ∨
      (processSection env st input).2.statusText = some "failed" := by
  unfold processSection
  rcases hval : validateSectionData input with e | v
  · exact Or.inr rfl
  · rcases v with ⟨t, pc, sc, ig⟩ | _ | cv | s
    · exact Or.inl rfl
    · dsimp only
      repeat' split
      all_goals first
        | exact Or.inl rfl
        | exact Or.inr rfl
    · dsimp only
      split
      · exact Or.inl rfl
      · exact Or.inr rfl
    · exact sectionProcess_status st s

theorem validate_search_shape (input : InputData)
    (hv : validateSectionData input = Except.ok Validated.searchData) :
    input.topic = none ∧ input.search_sources.getD false = true := by
  unfold validateSectionData at hv
  rcases ht : input.topic with _ | t
  · rw [ht] at hv
    dsimp only at hv
    by_cases hss : input.search_sources.getD false = true
    · exact ⟨rfl, hss⟩
    · rw [if_neg hss] at hv
      rcases hcs : input.confirm_sources with _ | v
      · rw [hcs] at hv
        dsimp only at hv
        repeat' split at hv
        all_goals simp_all
      · rw [hcs] at hv
        simp at hv
  · rw [ht] at hv
    simp at hv

/-- C8, counterexample: a search requested before any topic is set is an
error outcome, but its return carries *no* `isError` flag and no tagged
payload — the text is the plain string
`"Error: No topic specified. Please initialize with a topic first."` —
refuting the claim that every error outcome (including this one) is a
structured record with an `isError` flag. -/
theorem c8_no_topic_error_lacks_flag :
    processSection envEmpty initServerState { search_sources := some true } =
      (initServerState,
        Output.noTopicText "Error: No topic specified. Please initialize with a topic first.") ∧
      (processSection envEmpty initServerState
        { search_sources := some true }).2.hasIsError = false ∧
      (processSection envEmpty initServerState
        { search_sources := some true }).2.errorText = none :=
  ⟨rfl, rfl, rfl⟩

/-- C8, amended: `process_section` never raises (every outcome is a returned
record); every outcome carrying the `isError` flag has a tagged payload with
an `error` message and `status = "failed"`; every outcome without the flag
is one of the four success shapes *except* the search-before-topic response,
which is a plain text message without the flag — and that response arises
exactly from a search request (`topic` absent, `search_sources` truthy)
against a session with a falsy topic, leaving the state unchanged. -/
theorem c8_error_boundary_amended :
    ∀ (env : SearchEnv) (st : SessState) (input : InputData),
      ((processSection env st input).2.hasIsError = true →
        (processSection env st input).2.errorText ≠ none ∧
        (processSection env st input).2.statusText = some "failed") ∧
      ((processSection env st input).2.hasIsError = false →
        (processSection env st input).2.isSuccessShape = true ∨
        ∃ m, (processSection env st input).2 = Output.noTopicText m) ∧
      (∀ m, (processSection env st input).2 = Output.noTopicText m →
        topicFalsy st.topic = true ∧ input.topic = none ∧
        input.search_sources.getD false = true ∧ (processSection env st input).1 = st) := by
  intro env st input
  refine ⟨?_, output_not_error_shape _, ?_⟩
  · intro h
    refine ⟨output_error_text _ h, ?_⟩
    rcases processSection_status env st input with hs | hs
    · exact absurd hs (output_error_status_isSome _ h)
    · exact hs
  intro m hm
  rcases hval : validateSectionData input with e | v
  · rw [show (processSection env st input).2 = Output.validationFailed e by
      unfold processSection; rw [hval]] at hm
    simp at hm
  · rcases v with ⟨t, pc, sc, ig⟩ | _ | cv | s
    · rw [show (processSection env st input).2 =
          Output.initOk t (pc.getD 4) (sc.getD 10) (ig.getD false)
            (createPlan t (pc.getD 4))
            "Search for sources using the europeana_search tool" by
        unfold processSection; rw [hval]] at hm
      simp at hm
    · by_cases htf : topicFalsy st.topic = true
      · obtain ⟨h1, h2⟩ := validate_search_shape input hval
        refine ⟨htf, h1, h2, ?_⟩
        unfold processSection
        rw [hval]
        dsimp only
        rw [if_pos htf]
      · have hm' := hm
        unfold processSection at hm'
        rw [hval] at hm'
        dsimp only at hm'
        rw [if_neg htf] at hm'
        repeat' split at hm'
        all_goals simp_all
    · have hm' := hm
      unfold processSection at hm'
      rw [hval] at hm'
      dsimp only at hm'
      split at hm' <;> simp_all
    · have hm' := hm
      unfold processSection at hm'
      rw [hval] at hm'
      exact absurd hm' (sectionProcess_not_noTopic st s m)

/-- Witness for C8's amended boundary: a structurally invalid submission
(missing `total_sections`) yields a flagged outcome whose payload carries an
error message and the failed status. -/
theorem c8_error_boundary_amended_witness :
    (processSection envEmpty initServerState
      { section_number := some (NumField.int 1) }).2.errorText ≠ none ∧
    (processSection envEmpty initServerState
      { section_number := some (NumField.int 1) }).2.statusText = some "failed" :=
  (c8_error_boundary_amended envEmpty initServerState
    { section_number := some (NumField.int 1) }).1 (by decide)

/-! ## Deduplication across discovery strategies -/

/-- The running invariant of discovery: every collected entry's origin
identifier is in the `seen_ids` set, and the collected origin identifiers
are pairwise distinct. -/
def EidInv {α : Type} (eid : α → String) (p : List α × List String) : Prop :=
  (∀ s ∈ p.1, eid s ∈ p.2) ∧ (p.1.map eid).Nodup

theorem eidInv_nil {α : Type} (eid : α → String) : EidInv eid ([], []) :=
  ⟨fun s hs => absurd hs (List.not_mem_nil s), List.nodup_nil⟩

theorem buildSource_eid (topic rt : String) (r : RawRecord) (i : Int)
    (idf : String) (src : Source)
    (h : buildSource topic rt r i idf = Except.ok src) : src.europeanaId = idf := by
  unfold buildSource at h
  repeat' split at h
  all_goals simp_all
  all_goals rw [← h]

theorem buildGraphic_eid (topic rt : String) (r : RawRecord) (i : Int)
    (idf : String) (g : Graphic)
    (h : buildGraphic topic rt r i idf = Except.ok g) : g.europeanaId = idf := by
  unfold buildGraphic at h
  repeat' split at h
  all_goals simp_all
  all_goals rw [← h]

theorem processResult_cases (topic rt : String) (seen : List String)
    (r : RawRecord) (i : Int) :
    processResult topic rt seen r i = (none, seen) ∨
      ∃ idf, idf ∉ seen ∧
        (processResult topic rt seen r i = (none, idf :: seen) ∨
          ∃ src, processResult topic rt seen r i = (some src, idf :: seen) ∧
            src.europeanaId = idf) := by
  unfold processResult
  rcases hid : r.id with _ | idf
  · exact Or.inl rfl
  · dsimp only
    by_cases h0 : idf = ""
    · rw [if_pos h0]; exact Or.inl rfl
    · rw [if_neg h0]
      by_cases hc : seen.contains idf = true
      · rw [if_pos hc]; exact Or.inl rfl
      · rw [if_neg hc]
        have hni : idf ∉ seen := by simpa using hc
        rcases hb : buildSource topic rt r i idf with e | src
        · exact Or.inr ⟨idf, hni, Or.inl rfl⟩
        · exact Or.inr ⟨idf, hni, Or.inr
            ⟨src, rfl, buildSource_eid topic rt r i idf src hb⟩⟩

theorem processGraphicResult_cases (topic rt : String) (seen : List String)
    (r : RawRecord) (i : Int) :
    processGraphicResult topic rt seen r i = (none, seen) ∨
      ∃ idf, idf ∉ seen ∧
        (processGraphicResult topic rt seen r i = (none, idf :: seen) ∨
          ∃ g, processGraphicResult topic rt seen r i = (some g, idf :: seen) ∧
            g.europeanaId = idf) := by
  unfold processGraphicResult
  rcases hid : r.id with _ | idf
  · exact Or.inl rfl
  · dsimp only
    by_cases h0 : idf = ""
    · rw [if_pos h0]; exact Or.inl rfl
    · rw [if_neg h0]
      by_cases hc : seen.contains idf = true
      · rw [if_pos hc]; exact Or.inl rfl
      · rw [if_neg hc]
        have hni : idf ∉ seen := by simpa using hc
        rcases hb : buildGraphic topic rt r i idf with e | g
        · exact Or.inr ⟨idf, hni, Or.inl rfl⟩
        · exact Or.inr ⟨idf, hni, Or.inr
            ⟨g, rfl, buildGraphic_eid topic rt r i idf g hb⟩⟩

theorem eidInv_extend {α : Type} (eid : α → String) (acc : List α)
    (seen : List String) (idf : String)
    (h : EidInv eid (acc, seen)) : EidInv eid (acc, idf :: seen) :=
  ⟨fun s hs => List.mem_cons_of_mem _ (h.1 s hs), h.2⟩

theorem eidInv_snoc {α : Type} (eid : α → String) (acc : List α)
    (seen : List String) (idf : String) (x : α) (hx : eid x = idf)
    (hni : idf ∉ seen) (h : EidInv eid (acc, seen)) :
    EidInv eid (acc ++ [x], idf :: seen) := by
  constructor
  · intro s hs
    rcases List.mem_append.mp hs with hs | hs
    · exact List.mem_cons_of_mem _ (h.1 s hs)
    · have : s = x := by simpa using hs
      subst this
      rw [hx]
      exact List.mem_cons_self _ _
  · rw [List.map_append]
    rw [List.nodup_append]
    refine ⟨h.2, by simp, ?_⟩
    intro a ha hb
    have hax : a = eid x := by simpa using hb
    obtain ⟨s, hs, hsa⟩ := List.mem_map.mp ha
    have : eid s ∈ seen := h.1 s hs
    rw [hsa, hax, hx] at this
    exact hni this

theorem runBatch_inv (topic rt : String) :
    ∀ (recs : List RawRecord) (i : Int) (acc : List Source) (seen : List String),
      EidInv Source.europeanaId (acc, seen) →
      EidInv Source.europeanaId (runBatch topic rt i recs acc seen) := by
  intro recs
  induction recs with
  | nil => intro i acc seen h; simpa only [runBatch] using h
  | cons r rest ih =>
    intro i acc seen h
    rcases processResult_cases topic rt seen r i with hcase | ⟨idf, hni, hcase | ⟨src, hcase, heid⟩⟩
    · simp only [runBatch, hcase]
      exact ih _ _ _ h
    · simp only [runBatch, hcase]
      exact ih _ _ _ (eidInv_extend _ _ _ _ h)
    · simp only [runBatch, hcase]
      exact ih _ _ _ (eidInv_snoc _ _ _ _ _ heid hni h)

theorem runGraphicBatch_inv (topic rt : String) :
    ∀ (recs : List RawRecord) (i : Int) (acc : List Graphic) (seen : List String),
      EidInv Graphic.europeanaId (acc, seen) →
      EidInv Graphic.europeanaId (runGraphicBatch topic rt i recs acc seen) := by
  intro recs
  induction recs with
  | nil => intro i acc seen h; simpa only [runGraphicBatch] using h
  | cons r rest ih =>
    intro i acc seen h
    rcases processGraphicResult_cases topic rt seen r i with hcase | ⟨idf, hni, hcase | ⟨g, hcase, heid⟩⟩
    · simp only [runGraphicBatch, hcase]
      exact ih _ _ _ h
    · simp only [runGraphicBatch, hcase]
      exact ih _ _ _ (eidInv_extend _ _ _ _ h)
    · simp only [runGraphicBatch, hcase]
      exact ih _ _ _ (eidInv_snoc _ _ _ _ _ heid hni h)

theorem typeStrategies_inv (env : SearchEnv) (topic : String) (sc : Int) :
    ∀ (mts : List String) (acc : List Source × List String),
      EidInv Source.europeanaId acc →
      EidInv Source.europeanaId (typeStrategies env topic sc mts acc) := by
  intro mts
  induction mts with
  | nil => intro acc h; simpa only [typeStrategies] using h
  | cons mt rest ih =>
    intro acc h
    rcases acc with ⟨srcs, seen⟩
    simp only [typeStrategies]
    split
    · exact h
    · split
      · exact ih _ (runBatch_inv topic mt _ _ _ _ h)
      · exact ih _ h

theorem strategy1_inv (env : SearchEnv) (topic : String) (sc : Int) :
    EidInv Source.europeanaId (strategy1 env topic sc) := by
  unfold strategy1
  split
  · exact runBatch_inv topic "Source" _ _ _ _ (eidInv_nil _)
  · exact eidInv_nil _

theorem strategy2_inv (env : SearchEnv) (topic : String) (sc : Int)
    (acc : List Source × List String) (h : EidInv Source.europeanaId acc) :
    EidInv Source.europeanaId (strategy2 env topic sc acc) := by
  unfold strategy2
  split
  · split
    · split
      · exact runBatch_inv topic "Source" _ _ _ _ (by simpa using h)
      · exact h
    · exact h
  · exact h

theorem strategy3_inv (env : SearchEnv) (topic : String) (sc : Int)
    (acc : List Source × List String) (h : EidInv Source.europeanaId acc) :
    EidInv Source.europeanaId (strategy3 env topic sc acc) := by
  unfold strategy3
  split
  · split
    · split
      · exact runBatch_inv topic "Source" _ _ _ _ (by simpa using h)
      · exact h
    · exact h
  · exact h

theorem strategy4_inv (env : SearchEnv) (topic : String) (sc : Int)
    (acc : List Source × List String) (h : EidInv Source.europeanaId acc) :
    EidInv Source.europeanaId (strategy4 env topic sc acc) := by
  unfold strategy4
  split
  · exact typeStrategies_inv env topic sc _ acc h
  · exact h

theorem gStrategy1_inv (env : SearchEnv) (topic : String) (c : Int) :
    EidInv Graphic.europeanaId (gStrategy1 env topic c) := by
  unfold gStrategy1
  split
  · exact runGraphicBatch_inv topic "Image" _ _ _ _ (eidInv_nil _)
  · exact eidInv_nil _

theorem gStrategy2_inv (env : SearchEnv) (topic : String) (c : Int)
    (acc : List Graphic × List String) (h : EidInv Graphic.europeanaId acc) :
    EidInv Graphic.europeanaId (gStrategy2 env topic c acc) := by
  unfold gStrategy2
  split
  · dsimp only
    split
    · exact h
    · split
      · exact runGraphicBatch_inv topic "Image" _ _ _ _ (by simpa using h)
      · exact h
  · exact h

theorem gStrategy3_inv (env : SearchEnv) (topic : String) (c : Int)
    (acc : List Graphic × List String) (h : EidInv Graphic.europeanaId acc) :
    EidInv Graphic.europeanaId (gStrategy3 env topic c acc) := by
  unfold gStrategy3
  split
  · split
    · exact runGraphicBatch_inv topic "Video" _ _ _ _ (by simpa using h)
    · exact h
  · exact h

theorem gStrategy4_inv (env : SearchEnv) (topic : String) (c : Int)
    (acc : List Graphic × List String) (h : EidInv Graphic.europeanaId acc) :
    EidInv Graphic.europeanaId (gStrategy4 env topic c acc) := by
  unfold gStrategy4
  split
  · split
    · exact runGraphicBatch_inv topic "Audio" _ _ _ _ (by simpa using h)
    · exact h
  · exact h

theorem insertDescSrc_perm (x : Source) :
    ∀ l, List.Perm (insertDescSrc x l) (x :: l) := by
  intro l
  induction l with
  | nil => exact List.Perm.refl _
  | cons y ys ih =>
    simp only [insertDescSrc]
    split
    · exact List.Perm.refl _
    · exact (ih.cons y).trans (List.Perm.swap x y ys)

theorem sortFoldSrc_perm :
    ∀ (l acc : List Source),
      List.Perm (l.foldl (fun a x => insertDescSrc x a) acc) (acc ++ l) := by
  intro l
  induction l with
  | nil => intro acc; simp
  | cons x xs ih =>
    intro acc
    simp only [List.foldl_cons]
    exact ((ih _).trans (((insertDescSrc_perm x acc).append_right xs).trans
      List.perm_middle.symm))

theorem sortDescSrc_perm (l : List Source) : List.Perm (sortDescSrc l) l := by
  simpa only [List.nil_append] using sortFoldSrc_perm l []

theorem insertDescGr_perm (x : Graphic) :
    ∀ l, List.Perm (insertDescGr x l) (x :: l) := by
  intro l
  induction l with
  | nil => exact List.Perm.refl _
  | cons y ys ih =>
    simp only [insertDescGr]
    split
    · exact List.Perm.refl _
    · exact (ih.cons y).trans (List.Perm.swap x y ys)

theorem sortFoldGr_perm :
    ∀ (l acc : List Graphic),
      List.Perm (l.foldl (fun a x => insertDescGr x a) acc) (acc ++ l) := by
  intro l
  induction l with
  | nil => intro acc; simp
  | cons x xs ih =>
    intro acc
    simp only [List.foldl_cons]
    exact ((ih _).trans (((insertDescGr_perm x acc).append_right xs).trans
      List.perm_middle.symm))

theorem sortDescGr_perm (l : List Graphic) : List.Perm (sortDescGr l) l := by
  simpa only [List.nil_append] using sortFoldGr_perm l []

theorem sortedSrc_take_nodup (l : List Source)
    (h : (l.map Source.europeanaId).Nodup) (n : Nat) :
    (((sortDescSrc l).take n).map Source.europeanaId).Nodup := by
  have hsort : ((sortDescSrc l).map Source.europeanaId).Nodup :=
    (((sortDescSrc_perm l).map Source.europeanaId).nodup_iff).mpr h
  rw [List.map_take]
  exact List.Nodup.sublist (List.take_sublist n _) hsort

theorem sortedSrc_nodup (l : List Source)
    (h : (l.map Source.europeanaId).Nodup) :
    ((sortDescSrc l).map Source.europeanaId).Nodup :=
  (((sortDescSrc_perm l).map Source.europeanaId).nodup_iff).mpr h

theorem sortedGr_take_nodup (l : List Graphic)
    (h : (l.map Graphic.europeanaId).Nodup) (n : Nat) :
    (((sortDescGr l).take n).map Graphic.europeanaId).Nodup := by
  have hsort : ((sortDescGr l).map Graphic.europeanaId).Nodup :=
    (((sortDescGr_perm l).map Graphic.europeanaId).nodup_iff).mpr h
  rw [List.map_take]
  exact List.Nodup.sublist (List.take_sublist n _) hsort

/-- C5: in every run of `search_sources`, and of `search_graphics`, no two
returned entries share an origin identifier (`europeanaId`) — the running
`seen_ids` set carries the deduplication across all fallback strategies,
and the final sort and truncation preserve it. -/
theorem c5_discovery_dedup :
    (∀ (env : SearchEnv) (topic : String) (sc : Int),
      ((searchSources env topic sc).1.map Source.europeanaId).Nodup) ∧
    (∀ (env : SearchEnv) (topic : String) (c : Int),
      ((searchGraphics env topic c).map Graphic.europeanaId).Nodup) := by
  constructor
  · intro env topic sc
    have hexp : EidInv Source.europeanaId
        (if (((strategy1 env topic sc).1.length : Int) < sc &&
            !hasSub " OR ".toList topic.toList) = true then
          strategy4 env topic sc
            (strategy3 env topic sc (strategy2 env topic sc (strategy1 env topic sc)))
        else strategy1 env topic sc) := by
      split
      · exact strategy4_inv env topic sc _
          (strategy3_inv env topic sc _
            (strategy2_inv env topic sc _ (strategy1_inv env topic sc)))
      · exact strategy1_inv env topic sc
    unfold searchSources
    dsimp only
    split
    · exact sortedSrc_take_nodup _ hexp.2 _
    · exact sortedSrc_nodup _ hexp.2
  · intro env topic c
    have hexp : EidInv Graphic.europeanaId
        (gStrategy4 env topic c
          (gStrategy3 env topic c
            (gStrategy2 env topic c (gStrategy1 env topic c)))) :=
      gStrategy4_inv env topic c _
        (gStrategy3_inv env topic c _
          (gStrategy2_inv env topic c _ (gStrategy1_inv env topic c)))
    unfold searchGraphics
    exact sortedGr_take_nodup _ hexp.2 _

/-! ## Provider diversity -/

theorem addCount_map_id (a : String) :
    ∀ pc : List (String × Nat), a ∉ pc.map Prod.fst →
      pc.map (fun pn => if pn.1 = a then (pn.1, pn.2 + 1) else pn) = pc := by
  intro pc
  induction pc with
  | nil => intro _; rfl
  | cons x rest ih =>
    intro h
    have h1 : ¬x.1 = a := by
      intro he
      exact h (by simp [he])
    have h2 : a ∉ rest.map Prod.fst := fun hm => h (by simp [hm])
    simp only [List.map_cons, if_neg h1, ih h2]

theorem addCount_fresh (a : String) :
    ∀ pc : List (String × Nat), a ∉ pc.map Prod.fst →
      addCount pc a = pc ++ [(a, 1)] := by
  intro pc
  induction pc with
  | nil => intro _; rfl
  | cons x rest ih =>
    intro h
    rcases x with ⟨q, n⟩
    have h1 : ¬q = a := by
      intro he
      exact h (by simp [he])
    have h2 : a ∉ rest.map Prod.fst := fun hm => h (by simp [hm])
    simp only [addCount, if_neg h1, ih h2, List.cons_append]

theorem addCount_mem (a : String) :
    ∀ pc : List (String × Nat), (pc.map Prod.fst).Nodup → a ∈ pc.map Prod.fst →
      addCount pc a = pc.map (fun pn => if pn.1 = a then (pn.1, pn.2 + 1) else pn) := by
  intro pc
  induction pc with
  | nil => intro _ hm; cases hm
  | cons x rest ih =>
    intro hn hm
    rcases x with ⟨q, n⟩
    rw [List.map_cons] at hn
    by_cases hq : q = a
    · subst hq
      have hrest : q ∉ rest.map Prod.fst := (List.nodup_cons.mp hn).1
      simp only [addCount, if_pos rfl, List.map_cons, if_pos, addCount_map_id q rest hrest]
    · have hm' : a ∈ rest.map Prod.fst := by
        rw [List.map_cons] at hm
        rcases List.mem_cons.mp hm with h | h
        · exact absurd h.symm hq
        · exact h
      simp only [addCount, if_neg hq, List.map_cons, if_neg hq,
        ih (List.nodup_cons.mp hn).2 hm']

theorem providerCounts_spec (l : List String) :
    ((providerCounts l).map Prod.fst).Nodup ∧
      (∀ p, p ∈ (providerCounts l).map Prod.fst ↔ p ∈ l) ∧
      (∀ pn ∈ providerCounts l, pn.2 = l.count pn.1) ∧
      ((providerCounts l).map Prod.fst).Pairwise
        (fun a b => l.indexOf a < l.indexOf b) := by
  induction l using List.reverseRecOn with
  | nil => simp [providerCounts]
  | append_singleton l a ih =>
    obtain ⟨ihn, ihm, ihc, ihp⟩ := ih
    have hstep : providerCounts (l ++ [a]) = addCount (providerCounts l) a := by
      simp [providerCounts, List.foldl_append]
    by_cases hmem : a ∈ (providerCounts l).map Prod.fst
    · have hal : a ∈ l := (ihm a).mp hmem
      rw [hstep, addCount_mem a _ ihn hmem]
      have hfst : ∀ pn : String × Nat,
          (if pn.1 = a then (pn.1, pn.2 + 1) else pn).1 = pn.1 := by
        intro pn; split <;> rfl
      have hmapfst :
          ((providerCounts l).map
            (fun pn => if pn.1 = a then (pn.1, pn.2 + 1) else pn)).map Prod.fst =
          (providerCounts l).map Prod.fst := by
        rw [List.map_map]
        exact List.map_congr_left (fun pn _ => hfst pn)
      refine ⟨?_, ?_, ?_, ?_⟩
      · rw [hmapfst]; exact ihn
      · intro p
        rw [hmapfst, ihm p]
        constructor
        · intro h; exact List.mem_append.mpr (Or.inl h)
        · intro h
          rcases List.mem_append.mp h with h | h
          · exact h
          · have : p = a := by simpa using h
            subst this; exact hal
      · intro pn hpn
        obtain ⟨qn, hqn, hq⟩ := List.mem_map.mp hpn
        by_cases hqa : qn.1 = a
        · rw [if_pos hqa] at hq
          subst hq
          simp only [hfst]
          rw [List.count_append, hqa]
          simp [ihc qn hqn, hqa]
        · rw [if_neg hqa] at hq
          subst hq
          rw [List.count_append]
          simp [ihc qn hqn, hqa]
      · rw [hmapfst]
        refine ihp.imp_of_mem ?_
        intro b c hb hc hlt
        rw [List.indexOf_append_of_mem ((ihm b).mp hb),
          List.indexOf_append_of_mem ((ihm c).mp hc)]
        exact hlt
    · have hnl : a ∉ l := fun hl => hmem ((ihm a).mpr hl)
      rw [hstep, addCount_fresh a _ hmem, List.map_append]
      refine ⟨?_, ?_, ?_, ?_⟩
      · rw [List.nodup_append]
        refine ⟨ihn, by simp, ?_⟩
        intro b hb hb2
        have : b = a := by simpa using hb2
        subst this
        exact hmem hb
      · intro p
        constructor
        · intro h
          rcases List.mem_append.mp h with h | h
          · exact List.mem_append.mpr (Or.inl ((ihm p).mp h))
          · have : p = a := by simpa using h
            subst this; simp
        · intro h
          rcases List.mem_append.mp h with h | h
          · exact List.mem_append.mpr (Or.inl ((ihm p).mpr h))
          · have : p = a := by simpa using h
            subst this; simp
      · intro pn hpn
        rcases List.mem_append.mp hpn with h | h
        · have hne : ¬(pn.1 = a) := by
            intro he
            exact hmem (he ▸ List.mem_map.mpr ⟨pn, h, rfl⟩)
          rw [List.count_append]
          simp [ihc pn h, hne]
        · have : pn = (a, 1) := by simpa using h
          subst this
          rw [List.count_append]
          have : l.count a = 0 := List.count_eq_zero.mpr hnl
          simp [this]
      · rw [List.pairwise_append]
        refine ⟨?_, by simp, ?_⟩
        · refine ihp.imp_of_mem ?_
          intro b c hb hc hlt
          rw [List.indexOf_append_of_mem ((ihm b).mp hb),
            List.indexOf_append_of_mem ((ihm c).mp hc)]
          exact hlt
        · intro b hb c hc
          have hc' : c = a := by simpa using hc
          subst hc'
          have hbl : b ∈ l := (ihm b).mp hb
          rw [List.indexOf_append_of_mem hbl, List.indexOf_append_of_not_mem hnl]
          have h1 : l.indexOf b < l.length := List.indexOf_lt_length.mpr hbl
          have h2 : List.indexOf c [c] = 0 := by simp
          omega

theorem pickFirstMax_spec :
    ∀ (xs : List (String × Nat)) (best : String × Nat),
      pickFirstMax best xs ∈ best :: xs ∧
        (∀ y ∈ best :: xs, y.2 ≤ (pickFirstMax best xs).2) ∧
        ∃ l1 l2, best :: xs = l1 ++ (pickFirstMax best xs) :: l2 ∧
          ∀ y ∈ l1, y.2 < (pickFirstMax best xs).2 := by
  intro xs
  induction xs with
  | nil =>
    intro best
    refine ⟨List.mem_cons_self _ _, ?_, [], [], rfl, by simp⟩
    intro y hy
    rcases List.mem_cons.mp hy with rfl | h
    · exact le_refl _
    · cases h
  | cons x rest ih =>
    intro best
    by_cases hc : best.2 < x.2
    · have hr : pickFirstMax best (x :: rest) = pickFirstMax x rest := by
        show pickFirstMax (if best.2 < x.2 then x else best) rest = _
        rw [if_pos hc]
      obtain ⟨ha, hb, l1', l2', hdec, hlt⟩ := ih x
      rw [hr]
      refine ⟨List.mem_cons_of_mem best ha, ?_, best :: l1', l2', ?_, ?_⟩
      · intro y hy
        rcases List.mem_cons.mp hy with rfl | hy'
        · exact le_trans (le_of_lt hc) (hb x (List.mem_cons_self _ _))
        · exact hb y hy'
      · rw [List.cons_append, ← hdec]
      · intro y hy
        rcases List.mem_cons.mp hy with rfl | hy'
        · exact lt_of_lt_of_le hc (hb x (List.mem_cons_self _ _))
        · exact hlt y hy'
    · have hr : pickFirstMax best (x :: rest) = pickFirstMax best rest := by
        show pickFirstMax (if best.2 < x.2 then x else best) rest = _
        rw [if_neg hc]
      obtain ⟨ha, hb, l1', l2', hdec, hlt⟩ := ih best
      rw [hr]
      have hxle : x.2 ≤ best.2 := Nat.le_of_not_lt hc
      refine ⟨?_, ?_, ?_⟩
      · rcases List.mem_cons.mp ha with h | h
        · rw [h]; exact List.mem_cons_self _ _
        · exact List.mem_cons_of_mem _ (List.mem_cons_of_mem _ h)
      · intro y hy
        rcases List.mem_cons.mp hy with h | hy'
        · rw [h]; exact hb best (List.mem_cons_self _ _)
        · rcases List.mem_cons.mp hy' with h | hy''
          · rw [h]; exact le_trans hxle (hb best (List.mem_cons_self _ _))
          · exact hb y (List.mem_cons_of_mem _ hy'')
      · rcases l1' with _ | ⟨z, t'⟩
        · have hrb : pickFirstMax best rest = best := by
            have := hdec
            rw [List.nil_append] at this
            exact ((List.cons.injEq _ _ _ _).mp this).1.symm
          have hl2 : l2' = rest := by
            have := hdec
            rw [List.nil_append] at this
            exact ((List.cons.injEq _ _ _ _).mp this).2.symm
          refine ⟨[], x :: rest, ?_, by simp⟩
          rw [List.nil_append, hrb]
        · have hz : z = best := by
            have := hdec
            rw [List.cons_append] at this
            exact ((List.cons.injEq _ _ _ _).mp this).1.symm
          have hrest : rest = t' ++ pickFirstMax best rest :: l2' := by
            have := hdec
            rw [List.cons_append] at this
            exact ((List.cons.injEq _ _ _ _).mp this).2
          have hbestlt : best.2 < (pickFirstMax best rest).2 := by
            have := hlt z (List.mem_cons_self _ _)
            rw [hz] at this
            exact this
          refine ⟨best :: x :: t', l2', ?_, ?_⟩
          · rw [List.cons_append, List.cons_append, ← hrest]
          · intro y hy
            rcases List.mem_cons.mp hy with h | hy'
            · rw [h]; exact hbestlt
            · rcases List.mem_cons.mp hy' with h | hy''
              · rw [h]; exact lt_of_le_of_lt hxle hbestlt
              · exact hlt y (hz ▸ List.mem_cons_of_mem _ hy'')

/-- A source fixture carrying only a provider and an origin identifier. -/
def provSrc (p eid : String) : Source :=
  { id := 0, title := "", description := "", url := "", provider := p
    thumbnail := none, media_type := "", rights := "", date := ""
    europeanaId := eid, is_pdf := false }

/-- Three sources with providers A, A, B (the spec's concrete example). -/
def c9Sources : List Source :=
  [provSrc "A" "x", provSrc "A" "y", provSrc "B" "z"]

/-- C9: on a non-empty Source list, `_analyze_provider_diversity` reports
`total_providers` equal to the number of distinct providers,
`diverse_sources` true iff that number exceeds 1, and a `primary_provider`
that occurs in the list, has maximal frequency, and — on frequency ties —
the earliest first occurrence (Python's stable descending sort puts the
first-encountered maximal provider first); in particular providers
`["A","A","B"]` give diverse=true, total_providers=2, primary="A". -/
theorem c9_provider_diversity :
    (∀ sources : List Source, sources ≠ [] →
      (analyzeProviderDiversity sources).total_providers =
          (sources.map Source.provider).dedup.length ∧
        (analyzeProviderDiversity sources).diverse_sources =
          decide (1 < (sources.map Source.provider).dedup.length) ∧
        (analyzeProviderDiversity sources).primary_provider ∈
          sources.map Source.provider ∧
        (∀ q ∈ sources.map Source.provider,
          (sources.map Source.provider).count q ≤
            (sources.map Source.provider).count
              (analyzeProviderDiversity sources).primary_provider) ∧
        (∀ q ∈ sources.map Source.provider,
          (sources.map Source.provider).count q =
            (sources.map Source.provider).count
              (analyzeProviderDiversity sources).primary_provider →
          (sources.map Source.provider).indexOf
              (analyzeProviderDiversity sources).primary_provider ≤
            (sources.map Source.provider).indexOf q)) ∧
      analyzeProviderDiversity c9Sources =
        { diverse_sources := true, total_providers := 2
          primary_provider := "A", provider_distribution := [("A", 2), ("B", 1)] } := by
  constructor
  · intro sources hne
    have hie : sources.isEmpty = false := by
      cases sources with
      | nil => exact absurd rfl hne
      | cons a t => rfl
    obtain ⟨hnodup, hmm, hcount, hpair⟩ := providerCounts_spec (sources.map Source.provider)
    have hlen : (providerCounts (sources.map Source.provider)).length =
        (sources.map Source.provider).dedup.length := by
      have hperm : List.Perm
          ((providerCounts (sources.map Source.provider)).map Prod.fst)
          (sources.map Source.provider).dedup :=
        (List.perm_ext_iff_of_nodup hnodup (List.nodup_dedup _)).mpr
          (fun p => by rw [hmm p, List.mem_dedup])
      rw [← hperm.length_eq, List.length_map]
    unfold analyzeProviderDiversity
    rw [if_neg (by simp [hie])]
    dsimp only
    rcases hpc : providerCounts (sources.map Source.provider) with _ | ⟨x, xs⟩
    · exfalso
      have hs : ∃ s, s ∈ sources := by
        cases sources with
        | nil => exact absurd rfl hne
        | cons a t => exact ⟨a, List.mem_cons_self _ _⟩
      obtain ⟨s0, hs0⟩ := hs
      have hmem0 : s0.provider ∈ sources.map Source.provider :=
        List.mem_map.mpr ⟨s0, hs0, rfl⟩
      have h2 := (hmm s0.provider).mpr hmem0
      rw [hpc] at h2
      simp at h2
    · rw [hpc] at hnodup hmm hcount hpair hlen
      obtain ⟨hmem_r, hmax, l1, l2, hdec, hl1⟩ := pickFirstMax_spec xs x
      dsimp only
      refine ⟨hlen, by rw [hlen], ?_, ?_, ?_⟩
      · exact (hmm (pickFirstMax x xs).1).mp
          (List.mem_map.mpr ⟨pickFirstMax x xs, hmem_r, rfl⟩)
      · intro q hq
        obtain ⟨pn, hpn, hpq⟩ := List.mem_map.mp ((hmm q).mpr hq)
        have h1 : pn.2 = (sources.map Source.provider).count q := by
          rw [← hpq]; exact hcount pn hpn
        have h2 : (pickFirstMax x xs).2 =
            (sources.map Source.provider).count (pickFirstMax x xs).1 :=
          hcount _ hmem_r
        have h3 := hmax pn hpn
        omega
      · intro q hq heq
        by_cases hqr : q = (pickFirstMax x xs).1
        · rw [hqr]
        · obtain ⟨pn, hpn, hpq⟩ := List.mem_map.mp ((hmm q).mpr hq)
          have h1 : pn.2 = (sources.map Source.provider).count q := by
            rw [← hpq]; exact hcount pn hpn
          have h2 : (pickFirstMax x xs).2 =
              (sources.map Source.provider).count (pickFirstMax x xs).1 :=
            hcount _ hmem_r
          have hpn2 : pn.2 = (pickFirstMax x xs).2 := by omega
          have hpnl2 : pn ∈ l2 := by
            have hpn' := hpn
            rw [hdec] at hpn'
            rcases List.mem_append.mp hpn' with h | h
            · exact absurd hpn2 (Nat.ne_of_lt (hl1 pn h))
            · rcases List.mem_cons.mp h with h | h
              · exact absurd (by rw [← hpq, h]) hqr
              · exact h
          rw [hdec] at hpair
          rw [List.map_append, List.map_cons] at hpair
          obtain ⟨_, hp2, _⟩ := List.pairwise_append.mp hpair
          have hlt := (List.pairwise_cons.mp hp2).1 q
            (List.mem_map.mpr ⟨pn, hpnl2, hpq⟩)
          exact le_of_lt hlt
  · decide

/-- Witness for C9: on the A, A, B fixture the primary provider is one of
the list's providers. -/
theorem c9_provider_diversity_witness :
    (analyzeProviderDiversity c9Sources).primary_provider ∈
      c9Sources.map Source.provider :=
  ((c9_provider_diversity.1 c9Sources (by decide)).2.2).1

end Europeana
